import Mathlib

/-!
CreateSearchFile: the search-file pass of Precimonious.

A shallow embedding of `src/CreateSearchFile.cpp`.  The pass walks an LLVM
module and writes a JSON catalogue of the floating-point entities it finds.

Modelling conventions:

* the output stream `outfile` is the `String` written so far, threaded
  through every function together with the by-reference flag `first`;
* the diagnostic stream `errs()` is not modelled;
* LLVM's own objects (types, values, instructions, functions, modules) are
  plain data holding exactly what the pass reads off them;
* `std::set<string>` is a `List String` queried by membership;
* `unsigned` is a `Nat` reduced modulo `2 ^ 32` where a wider value is stored.
-/

namespace CreateSearchFile

/-! ## LLVM types -/

/-- The `Type::TypeID` enumeration of LLVM 3.0. -/
inductive TypeID where
  | VoidTyID | FloatTyID | DoubleTyID | X86_FP80TyID | FP128TyID | PPC_FP128TyID
  | LabelTyID | MetadataTyID | X86_MMXTyID | IntegerTyID | FunctionTyID
  | StructTyID | ArrayTyID | PointerTyID | VectorTyID
  deriving DecidableEq, Repr

/-- An LLVM type, as far as the pass looks into it: the primitive kinds, and
the element type of arrays, pointers and vectors.  Function and struct types
are never decomposed by the pass and are identified by a name. -/
inductive Ty where
  | voidTy | floatTy | doubleTy | x86_fp80Ty | fp128Ty | ppc_fp128Ty
  | labelTy | metadataTy | x86_mmxTy
  | integerTy (bits : Nat)
  | functionTy (signature : String)
  | structTy (name : String)
  | arrayTy (numElements : Nat) (elementType : Ty)
  | pointerTy (elementType : Ty)
  | vectorTy (numElements : Nat) (elementType : Ty)
  deriving DecidableEq, Repr

/-- `Type::getTypeID`. -/
def Ty.getTypeID : Ty → TypeID
  | .voidTy => .VoidTyID
  | .floatTy => .FloatTyID
  | .doubleTy => .DoubleTyID
  | .x86_fp80Ty => .X86_FP80TyID
  | .fp128Ty => .FP128TyID
  | .ppc_fp128Ty => .PPC_FP128TyID
  | .labelTy => .LabelTyID
  | .metadataTy => .MetadataTyID
  | .x86_mmxTy => .X86_MMXTyID
  | .integerTy _ => .IntegerTyID
  | .functionTy _ => .FunctionTyID
  | .structTy _ => .StructTyID
  | .arrayTy _ _ => .ArrayTyID
  | .pointerTy _ => .PointerTyID
  | .vectorTy _ _ => .VectorTyID

/-- `Type::isFloatingPointTy`: the five floating-point primitive kinds. -/
def Ty.isFloatingPointTy (t : Ty) : Bool :=
  match t.getTypeID with
  | .FloatTyID | .DoubleTyID | .X86_FP80TyID | .FP128TyID | .PPC_FP128TyID => true
  | _ => false

/-! ## Rendering the "type" field -/

/-- The value stored by `dimensions.push_back(arrayType->getNumElements())`:
a 64-bit element count narrowed to `unsigned`. -/
def toUnsigned (n : Nat) : Nat := n % 2 ^ 32

/-- `printDimensions`: each dimension in decimal between square brackets. -/
def printDimensions : List Nat → String
  | [] => ""
  | d :: ds => "[" ++ toString d ++ "]" ++ printDimensions ds

/-- `printAll`: the three precisions, each followed by `asterisk`. -/
def printAll (asterisk : String) : String :=
  "[\"float" ++ asterisk ++ "\", \"double" ++ asterisk ++ "\", \"longdouble" ++ asterisk ++ "\"]\n"

/-- `printAllArray`: the three precisions, each followed by the dimensions. -/
def printAllArray (dimensions : List Nat) : String :=
  "[" ++ "\"float" ++ printDimensions dimensions ++ "\", "
    ++ "\"double" ++ printDimensions dimensions ++ "\", "
    ++ "\"longdouble" ++ printDimensions dimensions ++ "\"]\n"

/-- The `while` loop at the head of the array case of `printType`: strips
array layers, pushing each layer's element count, outermost first, and stops
at the first type that is not an array. -/
def stripArrays : Ty → List Nat × Ty
  | .arrayTy n elementType =>
      let r := stripArrays elementType
      (toUnsigned n :: r.1, r.2)
  | t => ([], t)

/-- `printType`: the text written for the "type" field of a variable record.
`StartFromOriginalType` is the command-line flag `original-type`; `typeText`
is LLVM's printer for types (`outfile << *type`). -/
def printType (StartFromOriginalType : Bool) (typeText : Ty → String) (type : Ty) : String :=
  match type with
  | .floatTy =>
      if StartFromOriginalType then "[\"float\"]\n" else printAll ""
  | .doubleTy =>
      if StartFromOriginalType then "[\"float\", \"double\"]\n" else printAll ""
  | .x86_fp80Ty => printAll ""
  | .ppc_fp128Ty => printAll ""
  | .integerTy _ => "\"int\"\n"
  | .pointerTy elementType =>
      match elementType.getTypeID with
      | .FloatTyID =>
          if StartFromOriginalType then "[\"float*\"]\n" else printAll "*"
      | .DoubleTyID =>
          if StartFromOriginalType then "[\"float*\", \"double*\"]\n" else printAll "*"
      | .X86_FP80TyID => printAll "*"
      | _ => "\"pointer\"\n"
  | .structTy _ => "\"struct\"\n"
  | .arrayTy n e =>
      let dimensions := (stripArrays (.arrayTy n e)).1
      let type := (stripArrays (.arrayTy n e)).2
      if type.isFloatingPointTy then
        match type.getTypeID with
        | .FloatTyID =>
            if StartFromOriginalType then
              "[" ++ "\"float" ++ printDimensions dimensions ++ "\"]\n"
            else printAllArray dimensions
        | .DoubleTyID =>
            if StartFromOriginalType then
              "[" ++ "\"float" ++ printDimensions dimensions ++ "\", "
                ++ "\"double" ++ printDimensions dimensions ++ "\"]\n"
            else printAllArray dimensions
        | .X86_FP80TyID => printAllArray dimensions
        | .PPC_FP128TyID => printAllArray dimensions
        | _ => ""
      else
        "\"" ++ typeText type ++ printDimensions dimensions ++ "\"\n"
  | _ => ""

/-! ### The same field as data

`printType` writes either a bracketed list of quoted labels, or one quoted
string, or nothing.  `typeField` follows the branches of `printType` and
records which, so that statements about the labels need not parse text;
`printType_eq_text` ties the two together. -/

/-- The value written for the "type" field. -/
inductive TypeField where
  /-- A bracketed, comma-separated list of quoted labels. -/
  | candidates (labels : List String)
  /-- One quoted string, without brackets. -/
  | single (label : String)
  /-- No text at all. -/
  | nothing
  deriving DecidableEq, Repr

/-- A label between double quotes. -/
def quoted (label : String) : String := "\"" ++ label ++ "\""

/-- Quoted labels separated by a comma and a blank. -/
def renderLabels : List String → String
  | [] => ""
  | [l] => quoted l
  | l :: ls => quoted l ++ ", " ++ renderLabels ls

/-- The text of a field value. -/
def TypeField.text : TypeField → String
  | .candidates labels => "[" ++ renderLabels labels ++ "]\n"
  | .single label => quoted label ++ "\n"
  | .nothing => ""

/-- The labels of a field value, in the order written. -/
def TypeField.labels : TypeField → List String
  | .candidates labels => labels
  | .single label => [label]
  | .nothing => []

/-- The three precisions, each followed by `suffix`: the labels written by
`printAll` and `printAllArray`. -/
def allLabels (suffix : String) : List String :=
  ["float" ++ suffix, "double" ++ suffix, "longdouble" ++ suffix]

/-- The branches of `printType`, with the labels kept apart. -/
def typeField (StartFromOriginalType : Bool) (typeText : Ty → String) (type : Ty) : TypeField :=
  match type with
  | .floatTy =>
      if StartFromOriginalType then .candidates ["float"] else .candidates (allLabels "")
  | .doubleTy =>
      if StartFromOriginalType then .candidates ["float", "double"]
      else .candidates (allLabels "")
  | .x86_fp80Ty => .candidates (allLabels "")
  | .ppc_fp128Ty => .candidates (allLabels "")
  | .integerTy _ => .single "int"
  | .pointerTy elementType =>
      match elementType.getTypeID with
      | .FloatTyID =>
          if StartFromOriginalType then .candidates ["float*"] else .candidates (allLabels "*")
      | .DoubleTyID =>
          if StartFromOriginalType then .candidates ["float*", "double*"]
          else .candidates (allLabels "*")
      | .X86_FP80TyID => .candidates (allLabels "*")
      | _ => .single "pointer"
  | .structTy _ => .single "struct"
  | .arrayTy n e =>
      let dimensions := (stripArrays (.arrayTy n e)).1
      let type := (stripArrays (.arrayTy n e)).2
      if type.isFloatingPointTy then
        match type.getTypeID with
        | .FloatTyID =>
            if StartFromOriginalType then
              .candidates ["float" ++ printDimensions dimensions]
            else .candidates (allLabels (printDimensions dimensions))
        | .DoubleTyID =>
            if StartFromOriginalType then
              .candidates ["float" ++ printDimensions dimensions,
                "double" ++ printDimensions dimensions]
            else .candidates (allLabels (printDimensions dimensions))
        | .X86_FP80TyID => .candidates (allLabels (printDimensions dimensions))
        | .PPC_FP128TyID => .candidates (allLabels (printDimensions dimensions))
        | _ => .nothing
      else
        .single (typeText type ++ printDimensions dimensions)
  | _ => .nothing

/-- The array type with the given element counts, outermost first, around
`element`. -/
def nestedArray : List Nat → Ty → Ty
  | [], element => element
  | d :: ds, element => .arrayTy d (nestedArray ds element)

/-- The four floating-point kinds that `printType` names. -/
def fpKinds : List Ty := [.floatTy, .doubleTy, .x86_fp80Ty, .ppc_fp128Ty]

/-- `isFPArray`: an array or a pointer whose element type is floating-point,
or is again such an array or pointer. -/
def isFPArray : Ty → Bool
  | .arrayTy _ elementType =>
      if elementType.isFloatingPointTy then true else isFPArray elementType
  | .pointerTy elementType =>
      if elementType.isFloatingPointTy then true else isFPArray elementType
  | _ => false

/-- `isFPScalar`. -/
def isFPScalar (type : Ty) : Bool := type.isFloatingPointTy

/-! ## LLVM values, instructions, functions and modules -/

/-- The instruction opcodes of LLVM 3.0 (`Instruction.def`). -/
inductive Opcode where
  | Ret | Br | Switch | IndirectBr | Invoke | Unwind | Resume | Unreachable
  | Add | FAdd | Sub | FSub | Mul | FMul | UDiv | SDiv | FDiv | URem | SRem | FRem
  | Shl | LShr | AShr | And | Or | Xor
  | Alloca | Load | Store | GetElementPtr | Fence | AtomicCmpXchg | AtomicRMW
  | Trunc | ZExt | SExt | FPToUI | FPToSI | UIToFP | SIToFP | FPTrunc | FPExt
  | PtrToInt | IntToPtr | BitCast
  | ICmp | FCmp | PHI | Call | Select | UserOp1 | UserOp2 | VAArg
  | ExtractElement | InsertElement | ShuffleVector | ExtractValue | InsertValue
  | LandingPad
  deriving DecidableEq, Repr

/-- `Instruction::isTerminator`. -/
def Opcode.isTerminator : Opcode → Bool
  | .Ret | .Br | .Switch | .IndirectBr | .Invoke | .Unwind | .Resume | .Unreachable => true
  | _ => false

/-- `Instruction::isBinaryOp`: the instruction is a `BinaryOperator`. -/
def Opcode.isBinaryOp : Opcode → Bool
  | .Add | .FAdd | .Sub | .FSub | .Mul | .FMul | .UDiv | .SDiv | .FDiv
  | .URem | .SRem | .FRem | .Shl | .LShr | .AShr | .And | .Or | .Xor => true
  | _ => false

/-- `Instruction::getOpcodeName`. -/
def Opcode.getOpcodeName : Opcode → String
  | .Ret => "ret" | .Br => "br" | .Switch => "switch" | .IndirectBr => "indirectbr"
  | .Invoke => "invoke" | .Unwind => "unwind" | .Resume => "resume"
  | .Unreachable => "unreachable"
  | .Add => "add" | .FAdd => "fadd" | .Sub => "sub" | .FSub => "fsub"
  | .Mul => "mul" | .FMul => "fmul" | .UDiv => "udiv" | .SDiv => "sdiv"
  | .FDiv => "fdiv" | .URem => "urem" | .SRem => "srem" | .FRem => "frem"
  | .Shl => "shl" | .LShr => "lshr" | .AShr => "ashr"
  | .And => "and" | .Or => "or" | .Xor => "xor"
  | .Alloca => "alloca" | .Load => "load" | .Store => "store"
  | .GetElementPtr => "getelementptr" | .Fence => "fence"
  | .AtomicCmpXchg => "cmpxchg" | .AtomicRMW => "atomicrmw"
  | .Trunc => "trunc" | .ZExt => "zext" | .SExt => "sext"
  | .FPToUI => "fptoui" | .FPToSI => "fptosi" | .UIToFP => "uitofp"
  | .SIToFP => "sitofp" | .FPTrunc => "fptrunc" | .FPExt => "fpext"
  | .PtrToInt => "ptrtoint" | .IntToPtr => "inttoptr" | .BitCast => "bitcast"
  | .ICmp => "icmp" | .FCmp => "fcmp" | .PHI => "phi" | .Call => "call"
  | .Select => "select" | .UserOp1 => "<Invalid operator> "
  | .UserOp2 => "<Invalid operator> " | .VAArg => "va_arg"
  | .ExtractElement => "extractelement" | .InsertElement => "insertelement"
  | .ShuffleVector => "shufflevector" | .ExtractValue => "extractvalue"
  | .InsertValue => "insertvalue" | .LandingPad => "landingpad"

/-- An instruction, as far as the pass reads it. -/
structure Instruction where
  /-- `getOpcode()` -/
  opcode : Opcode
  /-- For a call: the name of `getCalledFunction()`, `none` when the call is
  indirect. -/
  calledFunction : Option String
  /-- The metadata `corvette.inst.id`: `none` when not attached, else its
  operand 0 (`none` when that operand is null). -/
  idMetadata : Option (Option String)
  /-- The file name of the debug location `dbg`, `none` when not attached. -/
  dbgFilename : Option String
  deriving DecidableEq, Repr

/-- `getID`: the string operand of the instruction's `corvette.inst.id`
metadata node, or the empty string. -/
def getID (inst : Instruction) : String :=
  match inst.idMetadata with
  | some node =>
      match node with
      | some mdstring => mdstring
      | none => ""
  | none => ""

/-- What a named value of a function's symbol table is. -/
inductive ValueKind where
  | allocaInst (allocatedType : Ty)
  | argument (type : Ty)
  | other
  deriving DecidableEq, Repr

/-- An entry of a function's `ValueSymbolTable`. -/
structure Value where
  name : String
  kind : ValueKind
  deriving DecidableEq, Repr

/-- A function: its name, its symbol table in iteration order and its basic
blocks in layout order, each a list of instructions. -/
structure Function where
  name : String
  symbolTable : List Value
  blocks : List (List Instruction)
  deriving DecidableEq, Repr

/-- `Function::isDeclaration`: the function has no body. -/
def Function.isDeclaration (f : Function) : Bool := f.blocks.isEmpty

/-- `BasicBlock::getTerminator`: the last instruction when it is a terminator. -/
def getTerminator (block : List Instruction) : Option Instruction :=
  match block.getLast? with
  | some i => if i.opcode.isTerminator then some i else none
  | none => none

/-- The terminator of `Function::getEntryBlock()`. -/
def Function.entryTerminator (f : Function) : Option Instruction :=
  match f.blocks with
  | [] => none
  | entry :: _ => getTerminator entry

/-- A module-level global variable: its name and the element type of its
pointer type. -/
structure GlobalVariable where
  name : String
  elementType : Ty
  deriving DecidableEq, Repr

/-- A module: its globals and its functions, each in iteration order. -/
structure Module where
  globals : List GlobalVariable
  functions : List Function
  deriving DecidableEq, Repr

/-! ## The pass -/

/-- The name sets held by the pass object. -/
structure Pass where
  excludedFunctions : List String
  includedFunctions : List String
  includedGlobalVars : List String
  excludedLocalVars : List String
  functionCalls : List String
  deriving DecidableEq, Repr

/-- The command-line flags read by the pass. -/
structure Flags where
  StartFromOriginalType : Bool
  ListOperators : Bool
  ListFunctions : Bool
  deriving DecidableEq, Repr

/-- The four list files: the contents of each, `none` when it cannot be
opened. -/
structure Files where
  ExcludedFunctionsFile : Option String
  IncludedFunctionsFile : Option String
  IncludedGlobalVarsFile : Option String
  ExcludedLocalVarsFile : Option String
  deriving DecidableEq, Repr

/-- The output stream together with the flag `first`. -/
structure Sink where
  outfile : String
  first : Bool
  deriving DecidableEq, Repr

/-- The head of every record printer: clear `first`, or write a separator. -/
def separator (s : Sink) : String :=
  if s.first then s.outfile else s.outfile ++ ",\n"

/-- `name.find('.') == string::npos`. -/
def noDot (name : String) : Bool := !(name.toList.contains '.')

/-- `CreateSearchFile::printGlobal`. -/
def printGlobal (flags : Flags) (typeText : Ty → String) (s : Sink)
    (name : String) (type : Ty) : Sink :=
  { outfile := separator s
      ++ "\t\x7b\"globalVar\": \x7b\n"
      ++ "\t\t\"name\": \"" ++ name ++ "\",\n"
      ++ "\t\t\"type\": "
      ++ printType flags.StartFromOriginalType typeText type
      ++ "\t\x7d\x7d"
    first := false }

/-- `CreateSearchFile::findGlobalVariables`. -/
def findGlobalVariables (pass : Pass) (flags : Flags) (typeText : Ty → String)
    (module : Module) (s : Sink) : Sink :=
  module.globals.foldl
    (fun s global =>
      if global.name ∈ pass.includedGlobalVars then
        if isFPScalar global.elementType || isFPArray global.elementType then
          if noDot global.name then
            printGlobal flags typeText s global.name global.elementType
          else s
        else s
      else s)
    s

/-- `findLocalType`: the allocated type of a stack allocation, the type of an
argument, and null otherwise. -/
def findLocalType (value : Value) : Option Ty :=
  match value.kind with
  | .allocaInst allocatedType => some allocatedType
  | .argument type => some type
  | .other => none

/-- `CreateSearchFile::printLocal`. -/
def printLocal (flags : Flags) (typeText : Ty → String) (function : Function)
    (s : Sink) (name : String) (type : Ty) : Sink :=
  let fileLine : String :=
    match function.entryTerminator with
    | some i =>
        match i.dbgFilename with
        | some filename => "\t\t\"file\": \"" ++ filename ++ "\",\n"
        | none => ""
    | none => ""
  { outfile := separator s
      ++ "\t\x7b\"localVar\": \x7b\n"
      ++ fileLine
      ++ "\t\t\"function\": \"" ++ function.name ++ "\",\n"
      ++ "\t\t\"name\": \"" ++ name ++ "\",\n"
      ++ "\t\t\"type\": "
      ++ printType flags.StartFromOriginalType typeText type
      ++ "\t\x7d\x7d"
    first := false }

/-- `CreateSearchFile::findLocalVariables`. -/
def findLocalVariables (pass : Pass) (flags : Flags) (typeText : Ty → String)
    (function : Function) (s : Sink) : Sink :=
  function.symbolTable.foldl
    (fun s value =>
      if value.name ∉ pass.excludedLocalVars then
        match findLocalType value with
        | some type =>
            if noDot value.name then
              if isFPScalar type || isFPArray type then
                printLocal flags typeText function s value.name type
              else s
            else s
        | none => s
      else s)
    s

/-- The body shared by both branches of `findOperators`: one `op` record. -/
def printOperator (function : Function) (s : Sink) (i : Instruction) : Sink :=
  { outfile := separator s
      ++ "\t\x7b\"op\": \x7b\n"
      ++ "\t\t\"id\": \"" ++ getID i ++ "\",\n"
      ++ "\t\t\"function\": \"" ++ function.name ++ "\",\n"
      ++ "\t\t\"name\": \"" ++ i.opcode.getOpcodeName ++ "\",\n"
      ++ "\t\t\"type\": [\"float\", \"double\", \"longdouble\"]\n"
      ++ "\t\x7d\x7d"
    first := false }

/-- `CreateSearchFile::findOperators`. -/
def findOperators (function : Function) (s : Sink) : Sink :=
  function.blocks.foldl
    (fun s b =>
      b.foldl
        (fun s i =>
          if i.opcode.isBinaryOp then
            match i.opcode with
            | .FAdd | .FSub | .FMul | .FDiv => printOperator function s i
            | _ => s
          else if i.opcode = .FCmp then printOperator function s i
          else s)
        s)
    s

/-- The record written by `findFunctionCalls` for one call to `name`. -/
def printCall (function : Function) (s : Sink) (i : Instruction) (name : String) : Sink :=
  { outfile := separator s
      ++ "\t\x7b\"call\": \x7b\n"
      ++ "\t\t\"id\": \"" ++ getID i ++ "\",\n"
      ++ "\t\t\"function\": \"" ++ function.name ++ "\",\n"
      ++ "\t\t\"name\": \"" ++ name ++ "\",\n"
      ++ "\t\t\"switch\": " ++ "[\"" ++ name ++ "f\",\"" ++ name ++ "\"]" ++ ",\n"
      ++ "\t\t\"type\": " ++ "[[\"float\",\"float\"], [\"double\",\"double\"]]" ++ "\n"
      ++ "\t\x7d\x7d"
    first := false }

/-- `CreateSearchFile::findFunctionCalls`. -/
def findFunctionCalls (pass : Pass) (function : Function) (s : Sink) : Sink :=
  function.blocks.foldl
    (fun s b =>
      b.foldl
        (fun s i =>
          if i.opcode = .Call then
            match i.calledFunction with
            | some name =>
                if name ∈ pass.functionCalls then printCall function s i name else s
            | none => s
          else s)
        s)
    s

/-- `CreateSearchFile::runOnFunction`. -/
def runOnFunction (pass : Pass) (flags : Flags) (typeText : Ty → String)
    (function : Function) (s : Sink) : Sink :=
  let s := findLocalVariables pass flags typeText function s
  let s := if flags.ListOperators then findOperators function s else s
  if flags.ListFunctions then findFunctionCalls pass function s else s

/-- `isspace` in the C locale. -/
def isSpace (c : Char) : Bool :=
  c = ' ' || c = '\t' || c = '\n' || c = '\x0b' || c = '\x0c' || c = '\r'

/-- The names read by `while (inFile >> name)`: the maximal runs of
non-whitespace characters.  `word` holds the current run, reversed. -/
def readNames : List Char → List Char → List String
  | [], word => if word.isEmpty then [] else [String.mk word.reverse]
  | c :: cs, word =>
      if isSpace c then
        if word.isEmpty then readNames cs [] else String.mk word.reverse :: readNames cs []
      else readNames cs (c :: word)

/-- `CreateSearchFile::doInitialization`: fills the name sets from the list
files; `.error 1` is `exit(1)`. -/
def doInitialization (files : Files) : Except Nat Pass :=
  match files.ExcludedFunctionsFile with
  | none => .error 1
  | some excluded =>
    match files.IncludedFunctionsFile with
    | none => .error 1
    | some included =>
      match files.IncludedGlobalVarsFile with
      | none => .error 1
      | some globals =>
        let locals : List String :=
          match files.ExcludedLocalVarsFile with
          | some text => readNames text.toList []
          | none => []
        .ok { excludedFunctions := readNames excluded.toList []
              includedFunctions := readNames included.toList []
              includedGlobalVars := readNames globals.toList []
              excludedLocalVars := locals
              functionCalls := ["log", "sqrt", "cos", "sin", "acos"] }

/-- The traversal of `runOnModule` once the sets are loaded: header, globals,
eligible functions, footer. -/
def writeModule (pass : Pass) (flags : Flags) (typeText : Ty → String)
    (module : Module) : String :=
  let s : Sink := { outfile := "\x7b\"config\": [\n", first := true }
  let s := findGlobalVariables pass flags typeText module s
  let s := module.functions.foldl
    (fun s f =>
      if !f.isDeclaration && decide (f.name ∈ pass.includedFunctions)
          && decide (f.name ∉ pass.excludedFunctions) then
        runOnFunction pass flags typeText f s
      else s)
    s
  s.outfile ++ "\n]\x7d\n"

/-- `CreateSearchFile::runOnModule`: the text written to the output file, or
the exit status when loading the lists terminates the process. -/
def runOnModule (flags : Flags) (typeText : Ty → String) (files : Files)
    (module : Module) : Except Nat String :=
  match doInitialization files with
  | .error status => .error status
  | .ok pass => .ok (writeModule pass flags typeText module)

/-! ## The output as a list of records

Every record printer first writes the separator decided by `first` and then
the text of its record.  The definitions below name the record texts and
list them scan by scan, so that the output can be compared with the records
joined by separators. -/

/-- The text `printGlobal` writes after the separator. -/
def globalRecord (flags : Flags) (typeText : Ty → String) (name : String) (type : Ty) : String :=
  "\t\x7b\"globalVar\": \x7b\n"
    ++ "\t\t\"name\": \"" ++ name ++ "\",\n"
    ++ "\t\t\"type\": "
    ++ printType flags.StartFromOriginalType typeText type
    ++ "\t\x7d\x7d"

/-- The line `printLocal` writes for the "file" field: present only when the
terminator of the entry block carries a debug location. -/
def fileLine (function : Function) : String :=
  match function.entryTerminator with
  | some i =>
      match i.dbgFilename with
      | some filename => "\t\t\"file\": \"" ++ filename ++ "\",\n"
      | none => ""
  | none => ""

/-- The text `printLocal` writes after the separator. -/
def localRecord (flags : Flags) (typeText : Ty → String) (function : Function)
    (name : String) (type : Ty) : String :=
  "\t\x7b\"localVar\": \x7b\n"
    ++ fileLine function
    ++ "\t\t\"function\": \"" ++ function.name ++ "\",\n"
    ++ "\t\t\"name\": \"" ++ name ++ "\",\n"
    ++ "\t\t\"type\": "
    ++ printType flags.StartFromOriginalType typeText type
    ++ "\t\x7d\x7d"

/-- The text `findOperators` writes after the separator. -/
def operatorRecord (function : Function) (i : Instruction) : String :=
  "\t\x7b\"op\": \x7b\n"
    ++ "\t\t\"id\": \"" ++ getID i ++ "\",\n"
    ++ "\t\t\"function\": \"" ++ function.name ++ "\",\n"
    ++ "\t\t\"name\": \"" ++ i.opcode.getOpcodeName ++ "\",\n"
    ++ "\t\t\"type\": [\"float\", \"double\", \"longdouble\"]\n"
    ++ "\t\x7d\x7d"

/-- The text `findFunctionCalls` writes after the separator. -/
def callRecord (function : Function) (i : Instruction) (name : String) : String :=
  "\t\x7b\"call\": \x7b\n"
    ++ "\t\t\"id\": \"" ++ getID i ++ "\",\n"
    ++ "\t\t\"function\": \"" ++ function.name ++ "\",\n"
    ++ "\t\t\"name\": \"" ++ name ++ "\",\n"
    ++ "\t\t\"switch\": " ++ "[\"" ++ name ++ "f\",\"" ++ name ++ "\"]" ++ ",\n"
    ++ "\t\t\"type\": " ++ "[[\"float\",\"float\"], [\"double\",\"double\"]]" ++ "\n"
    ++ "\t\x7d\x7d"

/-- Records joined by the separator: none before the first, none after the
last. -/
def joinRecords : List String → String
  | [] => ""
  | [r] => r
  | r :: rs => r ++ ",\n" ++ joinRecords rs

/-- The sink after `records` have been written behind `base`. -/
def sinkOf (base : String) (records : List String) : Sink :=
  { outfile := base ++ joinRecords records, first := records.isEmpty }

/-- The records of the global scan, in module order. -/
def globalRecords (pass : Pass) (flags : Flags) (typeText : Ty → String)
    (module : Module) : List String :=
  (module.globals.filter (fun g =>
      decide (g.name ∈ pass.includedGlobalVars ∧ '.' ∉ g.name.toList
        ∧ (isFPScalar g.elementType = true ∨ isFPArray g.elementType = true)))).map
    (fun g => globalRecord flags typeText g.name g.elementType)

/-- The records of the local scan of a function, in symbol-table order. -/
def localRecords (pass : Pass) (flags : Flags) (typeText : Ty → String)
    (function : Function) : List String :=
  function.symbolTable.filterMap (fun v =>
    match findLocalType v with
    | some t =>
        if v.name ∉ pass.excludedLocalVars ∧ '.' ∉ v.name.toList
            ∧ (isFPScalar t = true ∨ isFPArray t = true) then
          some (localRecord flags typeText function v.name t)
        else none
    | none => none)

/-- The opcodes for which `findOperators` writes a record. -/
def operatorOpcodes : List Opcode := [.FAdd, .FSub, .FMul, .FDiv, .FCmp]

/-- The records of the operator scan of a function, in layout order. -/
def operatorRecords (function : Function) : List String :=
  (function.blocks.flatten.filter (fun i => decide (i.opcode ∈ operatorOpcodes))).map
    (operatorRecord function)

/-- The records of the call scan of a function, in layout order. -/
def callRecords (pass : Pass) (function : Function) : List String :=
  function.blocks.flatten.filterMap (fun i =>
    if i.opcode = .Call then
      match i.calledFunction with
      | some name =>
          if name ∈ pass.functionCalls then some (callRecord function i name) else none
      | none => none
    else none)

/-- The records of one function: locals, then operators when listed, then
calls when listed. -/
def functionRecords (pass : Pass) (flags : Flags) (typeText : Ty → String)
    (function : Function) : List String :=
  localRecords pass flags typeText function
    ++ (if flags.ListOperators then operatorRecords function else [])
    ++ (if flags.ListFunctions then callRecords pass function else [])

/-- The functions `runOnModule` walks: with a body, included, not excluded. -/
def walkedFunctions (pass : Pass) (module : Module) : List Function :=
  module.functions.filter (fun f =>
    decide (f.isDeclaration = false ∧ f.name ∈ pass.includedFunctions
      ∧ f.name ∉ pass.excludedFunctions))

/-- The records of a run: the globals, then each walked function's records. -/
def moduleRecords (pass : Pass) (flags : Flags) (typeText : Ty → String)
    (module : Module) : List String :=
  globalRecords pass flags typeText module
    ++ (walkedFunctions pass module).flatMap (functionRecords pass flags typeText)

/-! ## Stripping array and pointer layers -/

/-- The type left after every array and pointer layer is stripped, in
whatever order the layers come. -/
def leafType : Ty → Ty
  | .arrayTy _ elementType => leafType elementType
  | .pointerTy elementType => leafType elementType
  | t => t

/-- The number of array and pointer layers above the leaf. -/
def layers : Ty → Nat
  | .arrayTy _ elementType => layers elementType + 1
  | .pointerTy elementType => layers elementType + 1
  | _ => 0

/-- LLVM's textual form of the types the pass can meet under an array, used
as a concrete `typeText`. -/
def typeName : Ty → String
  | .voidTy => "void"
  | .floatTy => "float"
  | .doubleTy => "double"
  | .x86_fp80Ty => "x86_fp80"
  | .fp128Ty => "fp128"
  | .ppc_fp128Ty => "ppc_fp128"
  | .labelTy => "label"
  | .metadataTy => "metadata"
  | .x86_mmxTy => "x86_mmx"
  | .integerTy bits => "i" ++ toString bits
  | .functionTy signature => signature
  | .structTy name => "%" ++ name
  | .arrayTy n elementType => "[" ++ toString n ++ " x " ++ typeName elementType ++ "]"
  | .pointerTy elementType => typeName elementType ++ "*"
  | .vectorTy n elementType => "<" ++ toString n ++ " x " ++ typeName elementType ++ ">"

/-! ## General lemmas -/

theorem printType_eq_text (orig : Bool) (typeText : Ty → String) (type : Ty) :
    printType orig typeText type = (typeField orig typeText type).text := by
  cases type with
  | pointerTy e =>
      cases e <;> cases orig <;> apply String.ext <;>
        simp [printType, typeField, Ty.getTypeID, TypeField.text, renderLabels, quoted,
          allLabels, printAll, String.data_append]
  | arrayTy n e =>
      simp only [printType, typeField]
      generalize (stripArrays (.arrayTy n e)).2 = t
      generalize (stripArrays (.arrayTy n e)).1 = dims
      cases t <;> cases orig <;> apply String.ext <;>
        simp [Ty.isFloatingPointTy, Ty.getTypeID, TypeField.text, renderLabels, quoted,
          allLabels, printAllArray, String.data_append]
  | _ =>
      cases orig <;> apply String.ext <;>
        simp [printType, typeField, TypeField.text, renderLabels, quoted,
          allLabels, printAll, String.data_append]

theorem stripArrays_nestedArray (ds : List Nat) (k : Ty) (hk : k ∈ fpKinds) :
    stripArrays (nestedArray ds k) = (ds.map toUnsigned, k) := by
  induction ds with
  | nil =>
      simp only [fpKinds, List.mem_cons, List.mem_singleton, List.not_mem_nil, or_false] at hk
      rcases hk with h | h | h | h <;> subst h <;> rfl
  | cons d ds ih => simp [nestedArray, stripArrays, ih]

theorem typeField_original_isPrefix (typeText : Ty → String) (type : Ty) :
    (typeField true typeText type).labels <+: (typeField false typeText type).labels := by
  cases type with
  | pointerTy e =>
      cases e <;> simp [typeField, Ty.getTypeID, TypeField.labels, allLabels]
  | arrayTy n e =>
      simp only [typeField]
      generalize (stripArrays (.arrayTy n e)).2 = t
      generalize (stripArrays (.arrayTy n e)).1 = dims
      cases t <;> simp [Ty.isFloatingPointTy, Ty.getTypeID, TypeField.labels, allLabels]
  | _ => simp [typeField, TypeField.labels, allLabels]

theorem typeField_nestedArray (orig : Bool) (typeText : Ty → String) (d : Nat)
    (ds : List Nat) (k : Ty) (hk : k ∈ fpKinds) :
    typeField orig typeText (nestedArray (d :: ds) k) =
      if orig && k == .floatTy then
        .candidates ["float" ++ printDimensions ((d :: ds).map toUnsigned)]
      else if orig && k == .doubleTy then
        .candidates ["float" ++ printDimensions ((d :: ds).map toUnsigned),
          "double" ++ printDimensions ((d :: ds).map toUnsigned)]
      else .candidates (allLabels (printDimensions ((d :: ds).map toUnsigned))) := by
  have h := stripArrays_nestedArray (d :: ds) k hk
  simp only [nestedArray] at h
  simp only [nestedArray, typeField, h]
  simp only [fpKinds, List.mem_cons, List.mem_singleton, List.not_mem_nil, or_false] at hk
  rcases hk with h | h | h | h <;> subst h <;> cases orig <;>
    simp [Ty.isFloatingPointTy, Ty.getTypeID]

theorem map_toUnsigned_of_lt (ds : List Nat) (h : ∀ x ∈ ds, x < 2 ^ 32) :
    ds.map toUnsigned = ds := by
  induction ds with
  | nil => rfl
  | cons d ds ih =>
      have hd : d < 2 ^ 32 := h d (List.mem_cons_self d ds)
      have ht : ∀ x ∈ ds, x < 2 ^ 32 := fun x hx => h x (List.mem_cons_of_mem d hx)
      simp only [List.map_cons, toUnsigned, Nat.mod_eq_of_lt hd, ih ht]

theorem foldl_eq_foldl_filterMap {α β γ : Type} (step : β → α → β) (pick : α → Option γ)
    (emit : β → γ → β)
    (h : ∀ s a, step s a = match pick a with
      | some c => emit s c
      | none => s)
    (l : List α) (s : β) :
    l.foldl step s = (l.filterMap pick).foldl emit s := by
  induction l generalizing s with
  | nil => rfl
  | cons a l ih =>
      rw [List.foldl_cons, List.filterMap_cons, ih, h]
      cases pick a <;> rfl

theorem foldl_eq_foldl_filter {α β : Type} (step : β → α → β) (p : α → Bool)
    (emit : β → α → β) (h : ∀ s a, step s a = if p a then emit s a else s)
    (l : List α) (s : β) :
    l.foldl step s = (l.filter p).foldl emit s := by
  induction l generalizing s with
  | nil => rfl
  | cons a l ih =>
      rw [List.foldl_cons, ih, h, List.filter_cons]
      cases p a <;> rfl

theorem foldl_skip_middle {α β : Type} (step : β → α → β) (a : α)
    (h : ∀ s, step s a = s) (pre post : List α) (s : β) :
    (pre ++ a :: post).foldl step s = (pre ++ post).foldl step s := by
  rw [List.foldl_append, List.foldl_cons, h, List.foldl_append]

theorem doInitialization_functionCalls (files : Files) (pass : Pass)
    (h : doInitialization files = .ok pass) :
    pass.functionCalls = ["log", "sqrt", "cos", "sin", "acos"] := by
  unfold doInitialization at h
  split at h
  · cases h
  · split at h
    · cases h
    · split at h
      · cases h
      · cases h
        rfl

/-! ## Candidate labels of scalars, arrays and pointers -/

/-- C1: for a float, double, x86-extended or ppc-extended scalar, `printType`
in exhaustive mode writes exactly the three labels float, double, longdouble
in that order; in original-type mode it writes the single label float for a
float scalar, the two labels float, double for a double scalar, and all three
labels for either extended scalar. -/
theorem printType_scalar (typeText : Ty → String) :
    printType false typeText .floatTy = "[\"float\", \"double\", \"longdouble\"]\n"
    ∧ printType false typeText .doubleTy = "[\"float\", \"double\", \"longdouble\"]\n"
    ∧ printType false typeText .x86_fp80Ty = "[\"float\", \"double\", \"longdouble\"]\n"
    ∧ printType false typeText .ppc_fp128Ty = "[\"float\", \"double\", \"longdouble\"]\n"
    ∧ printType true typeText .floatTy = "[\"float\"]\n"
    ∧ printType true typeText .doubleTy = "[\"float\", \"double\"]\n"
    ∧ printType true typeText .x86_fp80Ty = "[\"float\", \"double\", \"longdouble\"]\n"
    ∧ printType true typeText .ppc_fp128Ty = "[\"float\", \"double\", \"longdouble\"]\n" := by
  refine ⟨?_, ?_, ?_, ?_, ?_, ?_, ?_, ?_⟩ <;> rfl

/-- What `printType` writes in exhaustive mode for a nested array with element
counts `d :: ds`, outermost first, around a float, double, x86-extended or
ppc-extended element: the three labels float, double, longdouble, each followed
by the dimensions as collected, that is narrowed to `unsigned`.  They are the
element counts themselves only when these are below `2 ^ 32`. -/
theorem printType_array_exhaustive (typeText : Ty → String) (d : Nat) (ds : List Nat)
    (k : Ty) (hk : k ∈ fpKinds) :
    printType false typeText (nestedArray (d :: ds) k)
        = "[\"float" ++ printDimensions ((d :: ds).map toUnsigned)
          ++ "\", \"double" ++ printDimensions ((d :: ds).map toUnsigned)
          ++ "\", \"longdouble" ++ printDimensions ((d :: ds).map toUnsigned) ++ "\"]\n"
    ∧ ((∀ x ∈ d :: ds, x < 2 ^ 32) →
        printType false typeText (nestedArray (d :: ds) k)
          = "[\"float" ++ printDimensions (d :: ds)
            ++ "\", \"double" ++ printDimensions (d :: ds)
            ++ "\", \"longdouble" ++ printDimensions (d :: ds) ++ "\"]\n")
    ∧ printType false typeText (nestedArray [2, 3, 4] .floatTy)
        = "[\"float[2][3][4]\", \"double[2][3][4]\", \"longdouble[2][3][4]\"]\n" := by
  have main : printType false typeText (nestedArray (d :: ds) k)
        = "[\"float" ++ printDimensions ((d :: ds).map toUnsigned)
          ++ "\", \"double" ++ printDimensions ((d :: ds).map toUnsigned)
          ++ "\", \"longdouble" ++ printDimensions ((d :: ds).map toUnsigned) ++ "\"]\n" := by
    rw [printType_eq_text, typeField_nestedArray false typeText d ds k hk]
    apply String.ext
    simp [TypeField.text, renderLabels, quoted, allLabels, String.data_append]
  refine ⟨main, ?_, rfl⟩
  intro hlt
  rw [main, map_toUnsigned_of_lt (d :: ds) hlt]

theorem printType_array_exhaustive_witness :
    Ty.floatTy ∈ fpKinds
    ∧ printType false (fun _ => "") (nestedArray [7, 5] .floatTy)
        = "[\"float[7][5]\", \"double[7][5]\", \"longdouble[7][5]\"]\n" :=
  ⟨by decide,
    ((printType_array_exhaustive (fun _ => "") 7 [5] .floatTy (by decide)).2.1
      (by decide)).trans (by decide)⟩

/-- C2, at the input where it fails: a float array of 4294967296 elements
has the dimension list 4294967296, yet `printType` in exhaustive mode writes
the labels `float[0]`, `double[0]`, `longdouble[0]`, not `float[4294967296]`,
`double[4294967296]`, `longdouble[4294967296]`: the loop stores the 64-bit
element count in a vector of `unsigned`.  The same happens under an outer
dimension.  The float array of sizes 2, 3, 4 is rendered as the claim says. -/
theorem printType_array_narrowed_dimension (typeText : Ty → String) :
    printType false typeText (.arrayTy 4294967296 .floatTy)
        = "[\"float[0]\", \"double[0]\", \"longdouble[0]\"]\n"
    ∧ printType false typeText (.arrayTy 4294967296 .floatTy)
        ≠ "[\"float[4294967296]\", \"double[4294967296]\", \"longdouble[4294967296]\"]\n"
    ∧ printType false typeText (nestedArray [2, 4294967299] .doubleTy)
        = "[\"float[2][3]\", \"double[2][3]\", \"longdouble[2][3]\"]\n"
    ∧ printType false typeText (nestedArray [2, 3, 4] .floatTy)
        = "[\"float[2][3][4]\", \"double[2][3][4]\", \"longdouble[2][3][4]\"]\n" := by
  have h : printType false typeText (.arrayTy 4294967296 .floatTy)
      = "[\"float[0]\", \"double[0]\", \"longdouble[0]\"]\n" := rfl
  refine ⟨h, ?_, rfl, rfl⟩
  rw [h]
  decide

/-- C3: for a pointer to the scalar type double, `printType` writes the labels
`float*`, `double*`, `longdouble*` in exhaustive mode and the labels `float*`,
`double*` in original-type mode. -/
theorem printType_pointer_double (typeText : Ty → String) :
    printType false typeText (.pointerTy .doubleTy)
        = "[\"float*\", \"double*\", \"longdouble*\"]\n"
    ∧ printType true typeText (.pointerTy .doubleTy) = "[\"float*\", \"double*\"]\n" :=
  ⟨rfl, rfl⟩

/-- C4, at the input where it fails: for a pointer to the ppc-extended type
`printType` writes the single string `pointer` in both modes, not the three
labels with the pointer marker, although the ppc-extended scalar, the array of
ppc-extended and the pointer to x86-extended all get the three labels in both
modes. -/
theorem printType_pointer_ppc_fp128 (orig : Bool) (typeText : Ty → String) :
    printType orig typeText (.pointerTy .ppc_fp128Ty) = "\"pointer\"\n"
    ∧ printType orig typeText .ppc_fp128Ty = "[\"float\", \"double\", \"longdouble\"]\n"
    ∧ printType orig typeText (.arrayTy 3 .ppc_fp128Ty)
        = "[\"float[3]\", \"double[3]\", \"longdouble[3]\"]\n"
    ∧ printType orig typeText (.pointerTy .x86_fp80Ty)
        = "[\"float*\", \"double*\", \"longdouble*\"]\n" := by
  cases orig <;> exact ⟨rfl, rfl, rfl, rfl⟩

/-- C5: for every type the labels `printType` writes in original-type mode
are an initial segment of the labels it writes in exhaustive mode (`typeField`
is the labelled form of the text of `printType` in both modes).  For a scalar,
a pointer to, or an array of float the original-type labels stop at the float
label, and for double at the double label, with the suffix (none, `*`, or the
dimensions) that the three exhaustive labels carry. -/
theorem printType_original_labels (typeText : Ty → String) (type : Ty) (d : Nat)
    (ds : List Nat) :
    (printType true typeText type = (typeField true typeText type).text
      ∧ printType false typeText type = (typeField false typeText type).text
      ∧ (typeField true typeText type).labels <+: (typeField false typeText type).labels)
    ∧ ((typeField true typeText .floatTy).labels = ["float"]
      ∧ (typeField true typeText .doubleTy).labels = ["float", "double"]
      ∧ (typeField false typeText .floatTy).labels = ["float", "double", "longdouble"]
      ∧ (typeField false typeText .doubleTy).labels = ["float", "double", "longdouble"])
    ∧ ((typeField true typeText (.pointerTy .floatTy)).labels = ["float*"]
      ∧ (typeField true typeText (.pointerTy .doubleTy)).labels = ["float*", "double*"]
      ∧ (typeField false typeText (.pointerTy .floatTy)).labels
          = ["float*", "double*", "longdouble*"]
      ∧ (typeField false typeText (.pointerTy .doubleTy)).labels
          = ["float*", "double*", "longdouble*"])
    ∧ ((typeField true typeText (nestedArray (d :: ds) .floatTy)).labels
          = ["float" ++ printDimensions ((d :: ds).map toUnsigned)]
      ∧ (typeField true typeText (nestedArray (d :: ds) .doubleTy)).labels
          = ["float" ++ printDimensions ((d :: ds).map toUnsigned),
              "double" ++ printDimensions ((d :: ds).map toUnsigned)]
      ∧ (typeField false typeText (nestedArray (d :: ds) .floatTy)).labels
          = ["float" ++ printDimensions ((d :: ds).map toUnsigned),
              "double" ++ printDimensions ((d :: ds).map toUnsigned),
              "longdouble" ++ printDimensions ((d :: ds).map toUnsigned)]
      ∧ (typeField false typeText (nestedArray (d :: ds) .doubleTy)).labels
          = ["float" ++ printDimensions ((d :: ds).map toUnsigned),
              "double" ++ printDimensions ((d :: ds).map toUnsigned),
              "longdouble" ++ printDimensions ((d :: ds).map toUnsigned)]) := by
  refine ⟨⟨printType_eq_text true typeText type, printType_eq_text false typeText type,
    typeField_original_isPrefix typeText type⟩, ⟨rfl, rfl, rfl, rfl⟩, ⟨rfl, rfl, rfl, rfl⟩, ?_⟩
  have hf : Ty.floatTy ∈ fpKinds := by decide
  have hd : Ty.doubleTy ∈ fpKinds := by decide
  rw [typeField_nestedArray true typeText d ds _ hf, typeField_nestedArray true typeText d ds _ hd,
    typeField_nestedArray false typeText d ds _ hf, typeField_nestedArray false typeText d ds _ hd]
  exact ⟨rfl, rfl, rfl, rfl⟩

/-- C6, at the input where it fails: the IEEE quad type `fp128` passes the
gate `isFPScalar`, and an array of it passes `isFPArray`, yet `printType`
writes nothing for either in both modes, so the record of an included global
`x` of type `fp128` has a "type" field with no candidate at all. -/
theorem printType_fp128_writes_nothing (orig : Bool) (typeText : Ty → String) :
    isFPScalar .fp128Ty = true
    ∧ printType orig typeText .fp128Ty = ""
    ∧ (typeField orig typeText .fp128Ty).labels = []
    ∧ isFPArray (.arrayTy 4 .fp128Ty) = true
    ∧ printType orig typeText (.arrayTy 4 .fp128Ty) = ""
    ∧ (typeField orig typeText (.arrayTy 4 .fp128Ty)).labels = []
    ∧ (findGlobalVariables ⟨[], [], ["x"], [], []⟩ ⟨orig, false, false⟩ typeText
          ⟨[⟨"x", .fp128Ty⟩], []⟩ ⟨"", true⟩).outfile
        = "\t\x7b\"globalVar\": \x7b\n\t\t\"name\": \"x\",\n\t\t\"type\": \t\x7d\x7d" := by
  cases orig <;> exact ⟨rfl, rfl, rfl, rfl, rfl, rfl, rfl⟩

/-! ## The scans -/

/-- C7: `findGlobalVariables` writes one `globalVar` record per global, in
module order, for exactly the globals whose name is in the included-globals
set, whose name contains no dot and whose type passes `isFPScalar` or
`isFPArray`; a global named `x.1` is skipped whatever the included-globals set
and its type are: the output is the same as for the module without it. -/
theorem findGlobalVariables_emits (pass : Pass) (flags : Flags) (typeText : Ty → String)
    (module : Module) (s : Sink) :
    findGlobalVariables pass flags typeText module s
      = (module.globals.filter (fun g =>
          decide (g.name ∈ pass.includedGlobalVars ∧ '.' ∉ g.name.toList
            ∧ (isFPScalar g.elementType = true ∨ isFPArray g.elementType = true)))).foldl
          (fun s g => printGlobal flags typeText s g.name g.elementType) s
    ∧ ∀ (t : Ty) (pre post : List GlobalVariable),
        findGlobalVariables pass flags typeText
            ⟨pre ++ ⟨"x.1", t⟩ :: post, module.functions⟩ s
          = findGlobalVariables pass flags typeText ⟨pre ++ post, module.functions⟩ s := by
  constructor
  · unfold findGlobalVariables
    apply foldl_eq_foldl_filter
    intro s g
    by_cases h1 : g.name ∈ pass.includedGlobalVars <;>
      by_cases h2 : '.' ∈ g.name.toList <;>
      cases h3 : isFPScalar g.elementType <;>
      cases h4 : isFPArray g.elementType <;>
      simp [noDot, h1, h2]
  · intro t pre post
    unfold findGlobalVariables
    apply foldl_skip_middle
    intro s
    have hdot : noDot "x.1" = false := by decide
    simp [hdot]

/-- C8: `findLocalVariables` writes one `localVar` record per symbol-table
entry, in table order, for exactly the entries whose name is not in the
excluded-locals set, whose name contains no dot, that are a stack allocation
or a function argument, and whose type passes `isFPScalar` or `isFPArray`; an
entry whose name is in the excluded-locals set is skipped whatever its type:
the output is the same as for the symbol table without it. -/
theorem findLocalVariables_emits (pass : Pass) (flags : Flags) (typeText : Ty → String)
    (function : Function) (s : Sink) :
    findLocalVariables pass flags typeText function s
      = (function.symbolTable.filterMap (fun v =>
          match v.kind with
          | .allocaInst t =>
              if v.name ∉ pass.excludedLocalVars ∧ '.' ∉ v.name.toList
                  ∧ (isFPScalar t = true ∨ isFPArray t = true) then some (v.name, t)
              else none
          | .argument t =>
              if v.name ∉ pass.excludedLocalVars ∧ '.' ∉ v.name.toList
                  ∧ (isFPScalar t = true ∨ isFPArray t = true) then some (v.name, t)
              else none
          | .other => none)).foldl
          (fun s nt => printLocal flags typeText function s nt.1 nt.2) s
    ∧ ∀ (v : Value) (pre post : List Value), v.name ∈ pass.excludedLocalVars →
        findLocalVariables pass flags typeText
            ⟨function.name, pre ++ v :: post, function.blocks⟩ s
          = findLocalVariables pass flags typeText
              ⟨function.name, pre ++ post, function.blocks⟩ s := by
  constructor
  · unfold findLocalVariables
    apply foldl_eq_foldl_filterMap
    intro s v
    rcases v with ⟨name, kind⟩
    by_cases h1 : name ∈ pass.excludedLocalVars <;>
      by_cases h2 : '.' ∈ name.data <;>
      cases kind with
      | other => simp [findLocalType, noDot, h1]
      | allocaInst t =>
          cases h3 : isFPScalar t <;> cases h4 : isFPArray t <;>
            simp [findLocalType, noDot, h1, h2, h3, h4]
      | argument t =>
          cases h3 : isFPScalar t <;> cases h4 : isFPArray t <;>
            simp [findLocalType, noDot, h1, h2, h3, h4]
  · intro v pre post hv
    unfold findLocalVariables
    apply foldl_skip_middle
    intro s
    simp [hv]

theorem findLocalVariables_emits_witness :
    "tmp" ∈ ["tmp"]
    ∧ findLocalVariables ⟨[], [], [], ["tmp"], []⟩ ⟨false, false, false⟩ (fun _ => "")
          ⟨"f", [⟨"a", .argument .doubleTy⟩] ++ ⟨"tmp", .allocaInst .floatTy⟩ :: [], []⟩
          ⟨"", true⟩
        = findLocalVariables ⟨[], [], [], ["tmp"], []⟩ ⟨false, false, false⟩ (fun _ => "")
          ⟨"f", [⟨"a", .argument .doubleTy⟩] ++ [], []⟩ ⟨"", true⟩ :=
  ⟨by decide,
    (findLocalVariables_emits ⟨[], [], [], ["tmp"], []⟩ ⟨false, false, false⟩ (fun _ => "")
      ⟨"f", [], []⟩ ⟨"", true⟩).2 ⟨"tmp", .allocaInst .floatTy⟩ [⟨"a", .argument .doubleTy⟩] []
      (by decide)⟩

/-- C9: once the lists are loaded, `runOnModule` runs `runOnFunction`, which
writes the local, operator and call records, on exactly the functions that
have a body, whose name is in the included-functions set and whose name is not
in the excluded-functions set, in module order after the globals; a function
that is declaration-only, or absent from the included-functions set, or in the
excluded-functions set, contributes nothing: the output is the same as for the
module without it. -/
theorem runOnModule_function_gate (flags : Flags) (typeText : Ty → String) (files : Files)
    (module : Module) (pass : Pass) (h : doInitialization files = .ok pass) :
    runOnModule flags typeText files module
      = .ok (((module.functions.filter (fun f =>
          decide (f.isDeclaration = false ∧ f.name ∈ pass.includedFunctions
            ∧ f.name ∉ pass.excludedFunctions))).foldl
          (fun s f => runOnFunction pass flags typeText f s)
          (findGlobalVariables pass flags typeText module
            ⟨"\x7b\"config\": [\n", true⟩)).outfile ++ "\n]\x7d\n")
    ∧ ∀ (f : Function) (pre post : List Function),
        (f.isDeclaration = true ∨ f.name ∉ pass.includedFunctions
          ∨ f.name ∈ pass.excludedFunctions) →
        runOnModule flags typeText files ⟨module.globals, pre ++ f :: post⟩
          = runOnModule flags typeText files ⟨module.globals, pre ++ post⟩ := by
  constructor
  · simp only [runOnModule, h, writeModule]
    congr 2
    refine congrArg Sink.outfile ?_
    apply foldl_eq_foldl_filter
    intro s f
    by_cases h1 : f.name ∈ pass.includedFunctions <;>
      by_cases h2 : f.name ∈ pass.excludedFunctions <;>
      cases h3 : f.isDeclaration <;> simp [h1, h2]
  · intro f pre post hf
    simp only [runOnModule, h, writeModule, findGlobalVariables]
    congr 2
    refine congrArg Sink.outfile ?_
    apply foldl_skip_middle
    intro s
    rcases hf with hf | hf | hf <;> simp [hf]

theorem runOnModule_function_gate_witness :
    doInitialization ⟨some "skipped", some "kept\n", some "", none⟩
        = .ok ⟨["skipped"], ["kept"], [], [], ["log", "sqrt", "cos", "sin", "acos"]⟩
    ∧ runOnModule ⟨false, true, true⟩ (fun _ => "")
          ⟨some "skipped", some "kept\n", some "", none⟩
          ⟨[], [] ++ ⟨"other", [⟨"x", .allocaInst .doubleTy⟩],
              [[⟨.FAdd, none, none, none⟩, ⟨.Ret, none, none, none⟩]]⟩ :: []⟩
        = .ok "\x7b\"config\": [\n\n]\x7d\n" :=
  ⟨rfl,
    ((runOnModule_function_gate ⟨false, true, true⟩ (fun _ => "")
      ⟨some "skipped", some "kept\n", some "", none⟩ ⟨[], []⟩
      ⟨["skipped"], ["kept"], [], [], ["log", "sqrt", "cos", "sin", "acos"]⟩ rfl).2
      ⟨"other", [⟨"x", .allocaInst .doubleTy⟩],
        [[⟨.FAdd, none, none, none⟩, ⟨.Ret, none, none, none⟩]]⟩ [] []
      (Or.inr (Or.inl (by decide)))).trans rfl⟩

/-- C10: with the sets loaded by `doInitialization`, `findFunctionCalls`
writes one `call` record per instruction, in layout order, for exactly the
call instructions with a direct callee named log, sqrt, cos, sin or acos; the
record carries the callee name as "name", the pair name-with-`f`, name as
"switch" (for sqrt: `sqrtf`, `sqrt`) and the pairs float, float and double,
double as "type"; any other instruction, a call to another name and an
indirect call write nothing.  With call-listing enabled `runOnFunction` runs
this scan after the locals and the operators. -/
theorem findFunctionCalls_emits (files : Files) (pass : Pass)
    (h : doInitialization files = .ok pass) (function : Function) (s : Sink) :
    findFunctionCalls pass function s
      = (function.blocks.flatten.filterMap (fun i =>
          if i.opcode = .Call then
            match i.calledFunction with
            | some name =>
                if name ∈ ["log", "sqrt", "cos", "sin", "acos"] then some (i, name) else none
            | none => none
          else none)).foldl
          (fun s c => printCall function s c.1 c.2) s
    ∧ (∀ (i : Instruction) (name : String),
        (printCall function s i name).outfile
          = (if s.first then s.outfile else s.outfile ++ ",\n")
            ++ "\t\x7b\"call\": \x7b\n\t\t\"id\": \"" ++ getID i
            ++ "\",\n\t\t\"function\": \"" ++ function.name
            ++ "\",\n\t\t\"name\": \"" ++ name
            ++ "\",\n\t\t\"switch\": [\"" ++ name ++ "f\",\"" ++ name
            ++ "\"],\n\t\t\"type\": [[\"float\",\"float\"], [\"double\",\"double\"]]\n\t\x7d\x7d")
    ∧ (∀ (i : Instruction),
        (printCall function s i "sqrt").outfile
          = (if s.first then s.outfile else s.outfile ++ ",\n")
            ++ "\t\x7b\"call\": \x7b\n\t\t\"id\": \"" ++ getID i
            ++ "\",\n\t\t\"function\": \"" ++ function.name
            ++ "\",\n\t\t\"name\": \"sqrt\",\n\t\t\"switch\": [\"sqrtf\",\"sqrt\"]"
            ++ ",\n\t\t\"type\": [[\"float\",\"float\"], [\"double\",\"double\"]]\n\t\x7d\x7d")
    ∧ (∀ (i : Instruction),
        (i.opcode ≠ .Call ∨ i.calledFunction = none
          ∨ ∃ name, i.calledFunction = some name
              ∧ name ∉ ["log", "sqrt", "cos", "sin", "acos"]) →
        findFunctionCalls pass ⟨function.name, function.symbolTable, [[i]]⟩ s = s)
    ∧ (∀ (flags : Flags) (typeText : Ty → String), flags.ListFunctions = true →
        runOnFunction pass flags typeText function s
          = findFunctionCalls pass function
              (if flags.ListOperators then
                findOperators function (findLocalVariables pass flags typeText function s)
              else findLocalVariables pass flags typeText function s)) := by
  have hcalls := doInitialization_functionCalls files pass h
  refine ⟨?_, ?_, ?_, ?_, ?_⟩
  · unfold findFunctionCalls
    rw [← List.foldl_flatten]
    apply foldl_eq_foldl_filterMap
    intro s i
    rw [hcalls]
    by_cases h1 : i.opcode = .Call
    · cases h2 : i.calledFunction with
      | none => simp [h1]
      | some name =>
          by_cases h3 : name ∈ ["log", "sqrt", "cos", "sin", "acos"]
          · simp only [h1, if_true, if_pos h3]
          · simp only [h1, if_true, if_neg h3]
    · simp [h1]
  · intro i name
    apply String.ext
    simp [printCall, separator, String.data_append]
  · intro i
    apply String.ext
    simp [printCall, separator, String.data_append]
  · intro i hi
    simp only [findFunctionCalls, List.foldl_cons, List.foldl_nil, hcalls]
    rcases hi with hi | hi | ⟨name, hn, hi⟩
    · simp [hi]
    · simp [hi]
    · rw [hn]
      simp only [if_neg hi]
      split <;> rfl
  · intro flags typeText hflag
    simp only [runOnFunction, hflag, if_true]

theorem findFunctionCalls_emits_witness :
    doInitialization ⟨some "", some "f", some "", some ""⟩
        = .ok ⟨[], ["f"], [], [], ["log", "sqrt", "cos", "sin", "acos"]⟩
    ∧ findFunctionCalls ⟨[], ["f"], [], [], ["log", "sqrt", "cos", "sin", "acos"]⟩
          ⟨"f", [],
            [[⟨.Call, some "sqrt", some (some "12"), none⟩,
              ⟨.Call, some "exp", some (some "13"), none⟩,
              ⟨.Call, none, some (some "14"), none⟩,
              ⟨.Ret, none, some (some "15"), none⟩]]⟩ ⟨"", true⟩
        = ⟨"\t\x7b\"call\": \x7b\n\t\t\"id\": \"12\",\n\t\t\"function\": \"f\",\n"
            ++ "\t\t\"name\": \"sqrt\",\n\t\t\"switch\": [\"sqrtf\",\"sqrt\"],\n"
            ++ "\t\t\"type\": [[\"float\",\"float\"], [\"double\",\"double\"]]\n\t\x7d\x7d",
          false⟩ :=
  ⟨rfl,
    ((findFunctionCalls_emits ⟨some "", some "f", some "", some ""⟩
      ⟨[], ["f"], [], [], ["log", "sqrt", "cos", "sin", "acos"]⟩ rfl
      ⟨"f", [],
        [[⟨.Call, some "sqrt", some (some "12"), none⟩,
          ⟨.Call, some "exp", some (some "13"), none⟩,
          ⟨.Call, none, some (some "14"), none⟩,
          ⟨.Ret, none, some (some "15"), none⟩]]⟩ ⟨"", true⟩).1).trans (by decide)⟩

/-! ## Lemmas on the list of records -/

theorem joinRecords_cons_concat (a : String) (rs : List String) (r : String) :
    joinRecords (a :: rs ++ [r]) = joinRecords (a :: rs) ++ ",\n" ++ r := by
  induction rs generalizing a with
  | nil => rfl
  | cons b rs ih =>
      show a ++ ",\n" ++ joinRecords (b :: rs ++ [r])
        = a ++ ",\n" ++ joinRecords (b :: rs) ++ ",\n" ++ r
      rw [ih b]
      simp [String.append_assoc]

theorem joinRecords_concat (rs : List String) (r : String) :
    joinRecords (rs ++ [r]) = if rs.isEmpty then r else joinRecords rs ++ ",\n" ++ r := by
  cases rs with
  | nil => rfl
  | cons a rs => simpa using joinRecords_cons_concat a rs r

theorem sinkOf_emit (base : String) (rs : List String) (r : String) :
    ({ outfile := separator (sinkOf base rs) ++ r, first := false } : Sink)
      = sinkOf base (rs ++ [r]) := by
  simp only [sinkOf, separator, joinRecords_concat]
  cases rs with
  | nil => simp [joinRecords]
  | cons a rs => simp [String.append_assoc]

theorem foldl_sinkOf {α : Type} (step : Sink → α → Sink) (record : α → Option String)
    (h : ∀ base rs a, step (sinkOf base rs) a = match record a with
      | some r => sinkOf base (rs ++ [r])
      | none => sinkOf base rs)
    (l : List α) (base : String) (rs : List String) :
    l.foldl step (sinkOf base rs) = sinkOf base (rs ++ l.filterMap record) := by
  induction l generalizing rs with
  | nil => simp
  | cons a l ih =>
      rw [List.foldl_cons, h, List.filterMap_cons]
      cases record a with
      | none => exact ih rs
      | some r => simp [ih]

theorem filterMap_ite_eq_map_filter {α β : Type} (p : α → Bool) (f : α → β) (l : List α) :
    l.filterMap (fun a => if p a then some (f a) else none) = (l.filter p).map f := by
  induction l with
  | nil => rfl
  | cons a l ih =>
      rw [List.filterMap_cons, List.filter_cons]
      cases p a <;> simp [ih]

theorem printGlobal_sinkOf (flags : Flags) (typeText : Ty → String) (base : String)
    (rs : List String) (name : String) (type : Ty) :
    printGlobal flags typeText (sinkOf base rs) name type
      = sinkOf base (rs ++ [globalRecord flags typeText name type]) := by
  rw [← sinkOf_emit]
  simp [printGlobal, globalRecord, String.append_assoc]

theorem printLocal_sinkOf (flags : Flags) (typeText : Ty → String) (function : Function)
    (base : String) (rs : List String) (name : String) (type : Ty) :
    printLocal flags typeText function (sinkOf base rs) name type
      = sinkOf base (rs ++ [localRecord flags typeText function name type]) := by
  rw [← sinkOf_emit]
  simp [printLocal, localRecord, fileLine, String.append_assoc]

theorem printOperator_sinkOf (function : Function) (base : String) (rs : List String)
    (i : Instruction) :
    printOperator function (sinkOf base rs) i
      = sinkOf base (rs ++ [operatorRecord function i]) := by
  rw [← sinkOf_emit]
  simp [printOperator, operatorRecord, String.append_assoc]

theorem printCall_sinkOf (function : Function) (base : String) (rs : List String)
    (i : Instruction) (name : String) :
    printCall function (sinkOf base rs) i name
      = sinkOf base (rs ++ [callRecord function i name]) := by
  rw [← sinkOf_emit]
  simp [printCall, callRecord, String.append_assoc]

theorem findGlobalVariables_sinkOf (pass : Pass) (flags : Flags) (typeText : Ty → String)
    (module : Module) (base : String) (rs : List String) :
    findGlobalVariables pass flags typeText module (sinkOf base rs)
      = sinkOf base (rs ++ globalRecords pass flags typeText module) := by
  unfold findGlobalVariables globalRecords
  rw [← filterMap_ite_eq_map_filter]
  apply foldl_sinkOf
  intro base rs g
  rw [printGlobal_sinkOf]
  by_cases h1 : g.name ∈ pass.includedGlobalVars <;>
    by_cases h2 : '.' ∈ g.name.data <;>
    cases h3 : isFPScalar g.elementType <;>
    cases h4 : isFPArray g.elementType <;>
    simp [noDot, h1, h2, h3, h4]

theorem findLocalVariables_sinkOf (pass : Pass) (flags : Flags) (typeText : Ty → String)
    (function : Function) (base : String) (rs : List String) :
    findLocalVariables pass flags typeText function (sinkOf base rs)
      = sinkOf base (rs ++ localRecords pass flags typeText function) := by
  unfold findLocalVariables localRecords
  apply foldl_sinkOf
  intro base rs v
  cases hv : findLocalType v with
  | none => simp
  | some t =>
      by_cases h1 : v.name ∈ pass.excludedLocalVars <;>
        by_cases h2 : '.' ∈ v.name.data <;>
        cases h3 : isFPScalar t <;>
        cases h4 : isFPArray t <;>
        simp [noDot, h1, h2, h3, h4, printLocal_sinkOf]

theorem findOperators_sinkOf (function : Function) (base : String) (rs : List String) :
    findOperators function (sinkOf base rs)
      = sinkOf base (rs ++ operatorRecords function) := by
  unfold findOperators operatorRecords
  rw [← List.foldl_flatten, ← filterMap_ite_eq_map_filter]
  apply foldl_sinkOf
  intro base rs i
  rw [printOperator_sinkOf]
  cases hop : i.opcode <;> simp [Opcode.isBinaryOp, operatorOpcodes]

theorem findFunctionCalls_sinkOf (pass : Pass) (function : Function) (base : String)
    (rs : List String) :
    findFunctionCalls pass function (sinkOf base rs)
      = sinkOf base (rs ++ callRecords pass function) := by
  unfold findFunctionCalls callRecords
  rw [← List.foldl_flatten]
  apply foldl_sinkOf
  intro base rs i
  by_cases h1 : i.opcode = .Call
  · cases h2 : i.calledFunction with
    | none => simp [h1]
    | some name =>
        by_cases h3 : name ∈ pass.functionCalls <;> simp [h1, h3, printCall_sinkOf]
  · simp [h1]

theorem runOnFunction_sinkOf (pass : Pass) (flags : Flags) (typeText : Ty → String)
    (function : Function) (base : String) (rs : List String) :
    runOnFunction pass flags typeText function (sinkOf base rs)
      = sinkOf base (rs ++ functionRecords pass flags typeText function) := by
  simp only [runOnFunction, functionRecords, findLocalVariables_sinkOf]
  cases flags.ListOperators <;> cases flags.ListFunctions <;>
    simp [findOperators_sinkOf, findFunctionCalls_sinkOf]

theorem foldl_runOnFunction_sinkOf (pass : Pass) (flags : Flags) (typeText : Ty → String)
    (fs : List Function) (base : String) (rs : List String) :
    fs.foldl (fun s f => runOnFunction pass flags typeText f s) (sinkOf base rs)
      = sinkOf base (rs ++ fs.flatMap (functionRecords pass flags typeText)) := by
  induction fs generalizing rs with
  | nil => simp
  | cons f fs ih =>
      rw [List.foldl_cons, runOnFunction_sinkOf, ih, List.flatMap_cons, List.append_assoc]

theorem writeModule_eq_join (pass : Pass) (flags : Flags) (typeText : Ty → String)
    (module : Module) :
    writeModule pass flags typeText module
      = "\x7b\"config\": [\n" ++ joinRecords (moduleRecords pass flags typeText module)
          ++ "\n]\x7d\n" := by
  have hstart : ({ outfile := "\x7b\"config\": [\n", first := true } : Sink)
      = sinkOf "\x7b\"config\": [\n" [] := by
    simp [sinkOf, joinRecords]
  have hfold : ∀ s : Sink,
      module.functions.foldl
        (fun s f =>
          if !f.isDeclaration && decide (f.name ∈ pass.includedFunctions)
              && decide (f.name ∉ pass.excludedFunctions) then
            runOnFunction pass flags typeText f s
          else s) s
        = (walkedFunctions pass module).foldl
            (fun s f => runOnFunction pass flags typeText f s) s := by
    intro s
    unfold walkedFunctions
    apply foldl_eq_foldl_filter
    intro s f
    by_cases h1 : f.name ∈ pass.includedFunctions <;>
      by_cases h2 : f.name ∈ pass.excludedFunctions <;>
      cases h3 : f.isDeclaration <;> simp [h1, h2]
  simp only [writeModule, hfold, hstart, findGlobalVariables_sinkOf,
    foldl_runOnFunction_sinkOf, List.nil_append, moduleRecords]
  rfl

theorem joinRecords_length (r : String) (rs : List String) :
    (joinRecords (r :: rs)).length
      = ((r :: rs).map String.length).sum + 2 * rs.length := by
  induction rs generalizing r with
  | nil => simp [joinRecords]
  | cons a rs ih =>
      show (r ++ ",\n" ++ joinRecords (a :: rs)).length = _
      rw [String.length_append, String.length_append, ih a]
      have h2 : (",\n" : String).length = 2 := by decide
      simp only [h2, List.map_cons, List.sum_cons, List.length_cons]
      omega

/-! ## Operators, separators and the order of records -/

/-- C11: `findOperators` writes one `op` record per instruction, in layout
order, for exactly the binary operators with opcode FAdd, FSub, FMul or FDiv
and the floating-point comparisons (FCmp); an instruction with any other
opcode (integer arithmetic, FRem, load, call, ...) writes nothing; the "type"
of every `op` record is the fixed list float, double, longdouble: the record
text depends on the instruction's id, the function name and the opcode name
only, not on the original-type flag or on any type. -/
theorem findOperators_emits (function : Function) (s : Sink) :
    findOperators function s
      = (function.blocks.flatten.filter (fun i =>
          decide ((i.opcode.isBinaryOp = true
              ∧ (i.opcode = .FAdd ∨ i.opcode = .FSub ∨ i.opcode = .FMul ∨ i.opcode = .FDiv))
            ∨ i.opcode = .FCmp))).foldl
          (fun s i => printOperator function s i) s
    ∧ (∀ (i : Instruction),
        (printOperator function s i).outfile
          = (if s.first then s.outfile else s.outfile ++ ",\n")
            ++ "\t\x7b\"op\": \x7b\n\t\t\"id\": \"" ++ getID i
            ++ "\",\n\t\t\"function\": \"" ++ function.name
            ++ "\",\n\t\t\"name\": \"" ++ i.opcode.getOpcodeName
            ++ "\",\n\t\t\"type\": [\"float\", \"double\", \"longdouble\"]\n\t\x7d\x7d")
    ∧ (∀ (i : Instruction),
        i.opcode ∉ [Opcode.FAdd, Opcode.FSub, Opcode.FMul, Opcode.FDiv, Opcode.FCmp] →
        findOperators ⟨function.name, function.symbolTable, [[i]]⟩ s = s) := by
  refine ⟨?_, ?_, ?_⟩
  · unfold findOperators
    rw [← List.foldl_flatten]
    apply foldl_eq_foldl_filter
    intro s i
    cases hop : i.opcode <;> simp [Opcode.isBinaryOp]
  · intro i
    apply String.ext
    simp [printOperator, separator, String.data_append]
  · intro i hi
    simp only [findOperators, List.foldl_cons, List.foldl_nil]
    revert hi
    cases hop : i.opcode <;> simp [Opcode.isBinaryOp]

theorem findOperators_emits_witness :
    Opcode.FRem ∉ [Opcode.FAdd, Opcode.FSub, Opcode.FMul, Opcode.FDiv, Opcode.FCmp]
    ∧ findOperators ⟨"f", [], [[⟨.FRem, none, some (some "4"), none⟩]]⟩ ⟨"", true⟩
        = ⟨"", true⟩ :=
  ⟨by decide,
    (findOperators_emits ⟨"f", [], []⟩ ⟨"", true⟩).2.2 ⟨.FRem, none, some (some "4"), none⟩
      (by decide)⟩

/-- C12: for every module and every contents of the list files that load,
the text `runOnModule` writes is the header, then the records of the run
joined by the separator, then the footer.  Joining no record writes nothing,
joining one record writes it alone, and each further record is preceded by
one separator, so that `n` records, `n` at least one, come with exactly
`n - 1` separators of two characters, whichever scans wrote them. -/
theorem runOnModule_separators (flags : Flags) (typeText : Ty → String) (files : Files)
    (module : Module) :
    runOnModule flags typeText files module
      = (match doInitialization files with
        | .error status => .error status
        | .ok pass =>
            .ok ("\x7b\"config\": [\n"
              ++ joinRecords (moduleRecords pass flags typeText module) ++ "\n]\x7d\n"))
    ∧ joinRecords [] = ""
    ∧ (∀ r : String, joinRecords [r] = r)
    ∧ (∀ (r r' : String) (rs : List String),
        joinRecords (r :: r' :: rs) = r ++ ",\n" ++ joinRecords (r' :: rs))
    ∧ (∀ (r : String) (rs : List String),
        (joinRecords (r :: rs)).length
          = ((r :: rs).map String.length).sum + 2 * ((r :: rs).length - 1)) := by
  refine ⟨?_, rfl, fun _ => rfl, fun _ _ _ => rfl, ?_⟩
  · unfold runOnModule
    cases doInitialization files with
    | error status => rfl
    | ok pass => simp only [writeModule_eq_join]
  · intro r rs
    rw [joinRecords_length]
    simp

/-- C13: the records `runOnModule` writes are, in this order: the records of
the eligible globals in module order, then, for each walked function in module
order, its local records, followed by its operator records only when operator
listing is enabled, followed by its call records only when call listing is
enabled.  Each of the four lists is what the scan of that name writes, and with
a listing flag off `runOnFunction` does not run that scan at all. -/
theorem runOnModule_record_order (flags : Flags) (typeText : Ty → String) (files : Files)
    (module : Module) :
    runOnModule flags typeText files module
      = (match doInitialization files with
        | .error status => .error status
        | .ok pass =>
            .ok ("\x7b\"config\": [\n"
              ++ joinRecords
                  (globalRecords pass flags typeText module
                    ++ (module.functions.filter (fun f =>
                          decide (f.isDeclaration = false ∧ f.name ∈ pass.includedFunctions
                            ∧ f.name ∉ pass.excludedFunctions))).flatMap
                        (fun f =>
                          localRecords pass flags typeText f
                            ++ (if flags.ListOperators then operatorRecords f else [])
                            ++ (if flags.ListFunctions then callRecords pass f else [])))
              ++ "\n]\x7d\n"))
    ∧ (∀ (pass : Pass) (base : String) (rs : List String),
        findGlobalVariables pass flags typeText module (sinkOf base rs)
          = sinkOf base (rs ++ globalRecords pass flags typeText module))
    ∧ (∀ (pass : Pass) (f : Function) (base : String) (rs : List String),
        findLocalVariables pass flags typeText f (sinkOf base rs)
          = sinkOf base (rs ++ localRecords pass flags typeText f))
    ∧ (∀ (f : Function) (base : String) (rs : List String),
        findOperators f (sinkOf base rs) = sinkOf base (rs ++ operatorRecords f))
    ∧ (∀ (pass : Pass) (f : Function) (base : String) (rs : List String),
        findFunctionCalls pass f (sinkOf base rs) = sinkOf base (rs ++ callRecords pass f))
    ∧ (∀ (pass : Pass) (f : Function) (s : Sink) (orig calls : Bool),
        runOnFunction pass ⟨orig, false, calls⟩ typeText f s
          = if calls then
              findFunctionCalls pass f (findLocalVariables pass ⟨orig, false, calls⟩ typeText f s)
            else findLocalVariables pass ⟨orig, false, calls⟩ typeText f s)
    ∧ (∀ (pass : Pass) (f : Function) (s : Sink) (orig ops : Bool),
        runOnFunction pass ⟨orig, ops, false⟩ typeText f s
          = if ops then
              findOperators f (findLocalVariables pass ⟨orig, ops, false⟩ typeText f s)
            else findLocalVariables pass ⟨orig, ops, false⟩ typeText f s) := by
  refine ⟨?_, ?_, ?_, ?_, ?_, ?_, ?_⟩
  · unfold runOnModule
    cases doInitialization files with
    | error status => rfl
    | ok pass =>
        simp only [writeModule_eq_join]
        rfl
  · intro pass base rs
    exact findGlobalVariables_sinkOf pass flags typeText module base rs
  · intro pass f base rs
    exact findLocalVariables_sinkOf pass flags typeText f base rs
  · intro f base rs
    exact findOperators_sinkOf f base rs
  · intro pass f base rs
    exact findFunctionCalls_sinkOf pass f base rs
  · intro pass f s orig calls
    simp [runOnFunction]
  · intro pass f s orig ops
    simp [runOnFunction]

/-- C14: when the lists load and the module has no global that passes the
global scan's conditions and no function that passes the gate of
`runOnModule`, the text written is exactly the header followed by the footer:
an empty array with no comma. -/
theorem runOnModule_nothing_eligible (flags : Flags) (typeText : Ty → String)
    (files : Files) (module : Module) (pass : Pass)
    (h : doInitialization files = .ok pass)
    (hg : ∀ g ∈ module.globals,
      ¬ (g.name ∈ pass.includedGlobalVars ∧ '.' ∉ g.name.toList
        ∧ (isFPScalar g.elementType = true ∨ isFPArray g.elementType = true)))
    (hf : ∀ f ∈ module.functions,
      ¬ (f.isDeclaration = false ∧ f.name ∈ pass.includedFunctions
        ∧ f.name ∉ pass.excludedFunctions)) :
    runOnModule flags typeText files module = .ok "\x7b\"config\": [\n\n]\x7d\n" := by
  have h1 : globalRecords pass flags typeText module = [] := by
    unfold globalRecords
    rw [List.map_eq_nil_iff, List.filter_eq_nil_iff]
    intro g hgm
    simpa using hg g hgm
  have h2 : walkedFunctions pass module = [] := by
    unfold walkedFunctions
    rw [List.filter_eq_nil_iff]
    intro f hfm
    simpa using hf f hfm
  simp only [runOnModule, h, writeModule_eq_join, moduleRecords, h1, h2, List.flatMap_nil,
    List.append_nil, joinRecords]
  rfl

theorem runOnModule_nothing_eligible_witness :
    doInitialization ⟨some "", some "main", some "total", some ""⟩
        = .ok ⟨[], ["main"], ["total"], [], ["log", "sqrt", "cos", "sin", "acos"]⟩
    ∧ runOnModule ⟨false, true, true⟩ typeName ⟨some "", some "main", some "total", some ""⟩
          ⟨[⟨"count", .doubleTy⟩, ⟨"total", .integerTy 32⟩],
            [⟨"main", [⟨"x", .argument .doubleTy⟩], []⟩,
              ⟨"helper", [⟨"y", .allocaInst .floatTy⟩],
                [[⟨.FMul, none, some (some "1"), none⟩, ⟨.Ret, none, none, none⟩]]⟩]⟩
        = .ok "\x7b\"config\": [\n\n]\x7d\n" :=
  ⟨rfl,
    runOnModule_nothing_eligible ⟨false, true, true⟩ typeName
      ⟨some "", some "main", some "total", some ""⟩
      ⟨[⟨"count", .doubleTy⟩, ⟨"total", .integerTy 32⟩],
        [⟨"main", [⟨"x", .argument .doubleTy⟩], []⟩,
          ⟨"helper", [⟨"y", .allocaInst .floatTy⟩],
            [[⟨.FMul, none, some (some "1"), none⟩, ⟨.Ret, none, none, none⟩]]⟩]⟩
      ⟨[], ["main"], ["total"], [], ["log", "sqrt", "cos", "sin", "acos"]⟩ rfl
      (by decide) (by decide)⟩

/-! ## The "file" field of local records -/

set_option maxRecDepth 8192 in
/-- C15, as stated, fails: for a function whose entry block ends in a return
with no debug location, the `localVar` record of a float local `x` has the
fields "function", "name" and "type" only; the text `"file"` does not occur in
it, so the field is not present with an empty value. -/
theorem printLocal_no_file_field :
    (printLocal ⟨false, false, false⟩ typeName
        ⟨"f", [⟨"x", .allocaInst .floatTy⟩], [[⟨.Ret, none, none, none⟩]]⟩
        ⟨"", true⟩ "x" .floatTy).outfile
      = "\t\x7b\"localVar\": \x7b\n\t\t\"function\": \"f\",\n\t\t\"name\": \"x\",\n"
          ++ "\t\t\"type\": [\"float\", \"double\", \"longdouble\"]\n\t\x7d\x7d"
    ∧ ¬ ("\"file\"".toList <:+:
        (printLocal ⟨false, false, false⟩ typeName
          ⟨"f", [⟨"x", .allocaInst .floatTy⟩], [[⟨.Ret, none, none, none⟩]]⟩
          ⟨"", true⟩ "x" .floatTy).outfile.toList)
    ∧ (printLocal ⟨false, false, false⟩ typeName
        ⟨"f", [⟨"x", .allocaInst .floatTy⟩], [[⟨.Ret, none, none, none⟩]]⟩
        ⟨"", true⟩ "x" .floatTy).outfile
      ≠ "\t\x7b\"localVar\": \x7b\n\t\t\"file\": \"\",\n\t\t\"function\": \"f\",\n"
          ++ "\t\t\"name\": \"x\",\n"
          ++ "\t\t\"type\": [\"float\", \"double\", \"longdouble\"]\n\t\x7d\x7d" := by
  refine ⟨by decide, by decide, by decide⟩

/-- C15, amended: every `localVar` record has the fields "function", "name"
and "type"; when the terminator of the function's entry block carries a debug
location the record starts with the "file" field holding that location's file
name, and when the entry block has no terminator or the terminator has no
debug location the record has no "file" field. -/
theorem printLocal_file_field (flags : Flags) (typeText : Ty → String)
    (function : Function) (s : Sink) (name : String) (type : Ty) :
    (∀ (i : Instruction) (file : String),
        function.entryTerminator = some i → i.dbgFilename = some file →
        (printLocal flags typeText function s name type).outfile
          = (if s.first then s.outfile else s.outfile ++ ",\n")
            ++ "\t\x7b\"localVar\": \x7b\n\t\t\"file\": \"" ++ file
            ++ "\",\n\t\t\"function\": \"" ++ function.name
            ++ "\",\n\t\t\"name\": \"" ++ name
            ++ "\",\n\t\t\"type\": " ++ printType flags.StartFromOriginalType typeText type
            ++ "\t\x7d\x7d")
    ∧ ((function.entryTerminator = none
          ∨ ∃ i, function.entryTerminator = some i ∧ i.dbgFilename = none) →
        (printLocal flags typeText function s name type).outfile
          = (if s.first then s.outfile else s.outfile ++ ",\n")
            ++ "\t\x7b\"localVar\": \x7b\n\t\t\"function\": \"" ++ function.name
            ++ "\",\n\t\t\"name\": \"" ++ name
            ++ "\",\n\t\t\"type\": " ++ printType flags.StartFromOriginalType typeText type
            ++ "\t\x7d\x7d") := by
  constructor
  · intro i file hi hfile
    apply String.ext
    simp [printLocal, separator, hi, hfile, String.data_append]
  · intro h
    rcases h with h | ⟨i, hi, hnone⟩
    · apply String.ext
      simp [printLocal, separator, h, String.data_append]
    · apply String.ext
      simp [printLocal, separator, hi, hnone, String.data_append]

theorem printLocal_file_field_witness :
    Function.entryTerminator
        ⟨"f", [], [[⟨.Ret, none, none, some "src/main.c"⟩]]⟩
      = some ⟨.Ret, none, none, some "src/main.c"⟩
    ∧ (printLocal ⟨true, false, false⟩ typeName
        ⟨"f", [], [[⟨.Ret, none, none, some "src/main.c"⟩]]⟩ ⟨"", true⟩ "x" .doubleTy).outfile
      = "\t\x7b\"localVar\": \x7b\n\t\t\"file\": \"src/main.c\",\n\t\t\"function\": \"f\",\n"
          ++ "\t\t\"name\": \"x\",\n\t\t\"type\": [\"float\", \"double\"]\n\t\x7d\x7d" :=
  ⟨rfl,
    ((printLocal_file_field ⟨true, false, false⟩ typeName
      ⟨"f", [], [[⟨.Ret, none, none, some "src/main.c"⟩]]⟩ ⟨"", true⟩ "x" .doubleTy).1
      ⟨.Ret, none, none, some "src/main.c"⟩ "src/main.c" rfl rfl).trans (by decide)⟩

/-! ## Loading the list files -/

theorem readNames_word (w : List Char) (hw : ∀ c ∈ w, isSpace c = false)
    (rest word : List Char) :
    readNames (w ++ rest) word = readNames rest (w.reverse ++ word) := by
  induction w generalizing word with
  | nil => rfl
  | cons c w ih =>
      have hc : isSpace c = false := hw c (List.mem_cons_self c w)
      have ht : ∀ x ∈ w, isSpace x = false := fun x hx => hw x (List.mem_cons_of_mem c hx)
      rw [List.cons_append, readNames, if_neg (by simp [hc]), ih ht]
      simp

/-- C16, as stated, fails: with the first three list files openable and the
excluded-locals file not openable, `doInitialization` does not terminate the
process; it returns with the sets loaded, and `runOnModule` writes its output. -/
theorem doInitialization_fourth_file_missing :
    doInitialization ⟨some "skip", some "main", some "g", none⟩
      = .ok ⟨["skip"], ["main"], ["g"], [], ["log", "sqrt", "cos", "sin", "acos"]⟩
    ∧ runOnModule ⟨false, false, false⟩ typeName ⟨some "skip", some "main", some "g", none⟩
          ⟨[⟨"g", .floatTy⟩], []⟩
      = .ok ("\x7b\"config\": [\n\t\x7b\"globalVar\": \x7b\n\t\t\"name\": \"g\",\n"
          ++ "\t\t\"type\": [\"float\", \"double\", \"longdouble\"]\n\t\x7d\x7d\n]\x7d\n") :=
  ⟨rfl, rfl⟩

/-- C16, amended: `doInitialization` terminates the process with status 1,
and `runOnModule` then writes nothing, if any one of the first three list files
(excluded functions, included functions, included globals) cannot be opened;
when these three open, loading never terminates the process, whether or not
the excluded-locals file opens. -/
theorem doInitialization_fatal (flags : Flags) (typeText : Ty → String) (files : Files)
    (module : Module)
    (h : files.ExcludedFunctionsFile = none ∨ files.IncludedFunctionsFile = none
      ∨ files.IncludedGlobalVarsFile = none) :
    doInitialization files = .error 1
    ∧ runOnModule flags typeText files module = .error 1
    ∧ (∀ (a b c : String) (d : Option String) (status : Nat),
        doInitialization ⟨some a, some b, some c, d⟩ ≠ .error status) := by
  have h1 : doInitialization files = .error 1 := by
    rcases files with ⟨f1, f2, f3, f4⟩
    cases f1 <;> cases f2 <;> cases f3 <;> simp_all [doInitialization]
  refine ⟨h1, by simp [runOnModule, h1], ?_⟩
  intro a b c d status
  simp [doInitialization]

theorem doInitialization_fatal_witness :
    ((none : Option String) = none ∨ some "main" = none ∨ some "g" = (none : Option String))
    ∧ doInitialization ⟨none, some "main", some "g", some ""⟩ = .error 1
    ∧ runOnModule ⟨false, true, true⟩ typeName ⟨none, some "main", some "g", some ""⟩
          ⟨[⟨"g", .floatTy⟩], []⟩ = .error 1 :=
  ⟨Or.inl rfl,
    (doInitialization_fatal ⟨false, true, true⟩ typeName
      ⟨none, some "main", some "g", some ""⟩ ⟨[⟨"g", .floatTy⟩], []⟩ (Or.inl rfl)).1,
    (doInitialization_fatal ⟨false, true, true⟩ typeName
      ⟨none, some "main", some "g", some ""⟩ ⟨[⟨"g", .floatTy⟩], []⟩ (Or.inl rfl)).2.1⟩

/-- C17: `doInitialization` terminates the process, with status 1, exactly
when one of the first three list files cannot be opened.  When only the
excluded-locals file cannot be opened, loading succeeds: the excluded-locals
set is empty, each of the other three sets holds the names read from its file,
and the call set is log, sqrt, cos, sin, acos.  The names read from a text are
its whitespace-separated tokens: whitespace before a name is skipped, a name
is a run of non-whitespace characters ended by a whitespace character or by
the end of the text, and an exhausted text gives no further name. -/
theorem doInitialization_outcome (files : Files) :
    ((∃ status, doInitialization files = .error status)
      ↔ (files.ExcludedFunctionsFile = none ∨ files.IncludedFunctionsFile = none
          ∨ files.IncludedGlobalVarsFile = none))
    ∧ (∀ status, doInitialization files = .error status → status = 1)
    ∧ (∀ a b c : String,
        doInitialization ⟨some a, some b, some c, none⟩
          = .ok ⟨readNames a.toList [], readNames b.toList [], readNames c.toList [], [],
              ["log", "sqrt", "cos", "sin", "acos"]⟩)
    ∧ readNames [] [] = []
    ∧ (∀ (c : Char) (cs : List Char), isSpace c = true →
        readNames (c :: cs) [] = readNames cs [])
    ∧ (∀ (w : List Char) (c : Char) (cs : List Char),
        w ≠ [] → (∀ x ∈ w, isSpace x = false) → isSpace c = true →
        readNames (w ++ c :: cs) [] = String.mk w :: readNames cs [])
    ∧ (∀ (w : List Char), w ≠ [] → (∀ x ∈ w, isSpace x = false) →
        readNames w [] = [String.mk w]) := by
  refine ⟨?_, ?_, ?_, rfl, ?_, ?_, ?_⟩
  · rcases files with ⟨f1, f2, f3, f4⟩
    cases f1 <;> cases f2 <;> cases f3 <;> simp [doInitialization]
  · intro status
    rcases files with ⟨f1, f2, f3, f4⟩
    cases f1 <;> cases f2 <;> cases f3 <;> simp [doInitialization] <;> intro h <;> exact h.symm
  · intro a b c
    rfl
  · intro c cs hc
    simp [readNames, hc]
  · intro w c cs hne hw hc
    rw [readNames_word w hw, readNames, if_pos hc]
    have hnil : (w.reverse ++ []).isEmpty = false := by
      cases w with
      | nil => exact absurd rfl hne
      | cons x xs => simp
    simp [hnil, hne]
  · intro w hne hw
    have h := readNames_word w hw [] []
    rw [List.append_nil] at h
    rw [h, readNames]
    cases w with
    | nil => exact absurd rfl hne
    | cons x xs => simp

theorem doInitialization_outcome_witness :
    ['m', 'a', 'i', 'n'] ≠ []
    ∧ (∀ x ∈ ['m', 'a', 'i', 'n'], isSpace x = false)
    ∧ isSpace '\n' = true
    ∧ readNames (['m', 'a', 'i', 'n'] ++ '\n' :: ['f', 'o', 'o']) []
        = String.mk ['m', 'a', 'i', 'n'] :: readNames ['f', 'o', 'o'] [] :=
  ⟨by decide, by decide, by decide,
    (doInitialization_outcome ⟨none, none, none, none⟩).2.2.2.2.2.1
      ['m', 'a', 'i', 'n'] '\n' ['f', 'o', 'o'] (by decide) (by decide) (by decide)⟩

/-! ## Instruction identifiers -/

/-- C18: for an instruction without the `corvette.inst.id` metadata `getID`
returns the empty string, and with the metadata holding a string it returns
that string.  Whether an `op` or `call` record is written does not depend on
the metadata, and the record written without it is the record written with
an id, with the empty string in the "id" field and every other field the
same. -/
theorem getID_missing_metadata (pass : Pass) (function : Function) (s : Sink)
    (opcode : Opcode) (callee : Option String) (dbg : Option String)
    (id name : String) (metadata : Option (Option String)) :
    getID ⟨opcode, callee, none, dbg⟩ = ""
    ∧ getID ⟨opcode, callee, some (some id), dbg⟩ = id
    ∧ (printOperator function s ⟨opcode, callee, none, dbg⟩).outfile
        = (if s.first then s.outfile else s.outfile ++ ",\n")
          ++ "\t\x7b\"op\": \x7b\n\t\t\"id\": \"" ++ ""
          ++ "\",\n\t\t\"function\": \"" ++ function.name
          ++ "\",\n\t\t\"name\": \"" ++ opcode.getOpcodeName
          ++ "\",\n\t\t\"type\": [\"float\", \"double\", \"longdouble\"]\n\t\x7d\x7d"
    ∧ (printOperator function s ⟨opcode, callee, some (some id), dbg⟩).outfile
        = (if s.first then s.outfile else s.outfile ++ ",\n")
          ++ "\t\x7b\"op\": \x7b\n\t\t\"id\": \"" ++ id
          ++ "\",\n\t\t\"function\": \"" ++ function.name
          ++ "\",\n\t\t\"name\": \"" ++ opcode.getOpcodeName
          ++ "\",\n\t\t\"type\": [\"float\", \"double\", \"longdouble\"]\n\t\x7d\x7d"
    ∧ (printCall function s ⟨opcode, callee, none, dbg⟩ name).outfile
        = (if s.first then s.outfile else s.outfile ++ ",\n")
          ++ "\t\x7b\"call\": \x7b\n\t\t\"id\": \"" ++ ""
          ++ "\",\n\t\t\"function\": \"" ++ function.name
          ++ "\",\n\t\t\"name\": \"" ++ name
          ++ "\",\n\t\t\"switch\": [\"" ++ name ++ "f\",\"" ++ name
          ++ "\"],\n\t\t\"type\": [[\"float\",\"float\"], [\"double\",\"double\"]]\n\t\x7d\x7d"
    ∧ (printCall function s ⟨opcode, callee, some (some id), dbg⟩ name).outfile
        = (if s.first then s.outfile else s.outfile ++ ",\n")
          ++ "\t\x7b\"call\": \x7b\n\t\t\"id\": \"" ++ id
          ++ "\",\n\t\t\"function\": \"" ++ function.name
          ++ "\",\n\t\t\"name\": \"" ++ name
          ++ "\",\n\t\t\"switch\": [\"" ++ name ++ "f\",\"" ++ name
          ++ "\"],\n\t\t\"type\": [[\"float\",\"float\"], [\"double\",\"double\"]]\n\t\x7d\x7d"
    ∧ findOperators ⟨function.name, function.symbolTable, [[⟨opcode, callee, metadata, dbg⟩]]⟩ s
        = (if opcode ∈ operatorOpcodes then
            printOperator ⟨function.name, function.symbolTable,
              [[⟨opcode, callee, metadata, dbg⟩]]⟩ s ⟨opcode, callee, metadata, dbg⟩
          else s)
    ∧ findFunctionCalls pass
          ⟨function.name, function.symbolTable, [[⟨opcode, callee, metadata, dbg⟩]]⟩ s
        = (if opcode = .Call ∧ ∃ n, callee = some n ∧ n ∈ pass.functionCalls then
            printCall ⟨function.name, function.symbolTable,
              [[⟨opcode, callee, metadata, dbg⟩]]⟩ s ⟨opcode, callee, metadata, dbg⟩
              (callee.getD "")
          else s) := by
  refine ⟨rfl, rfl, ?_, ?_, ?_, ?_, ?_, ?_⟩
  · apply String.ext
    simp [printOperator, separator, getID, String.data_append]
  · apply String.ext
    simp [printOperator, separator, getID, String.data_append]
  · apply String.ext
    simp [printCall, separator, getID, String.data_append]
  · apply String.ext
    simp [printCall, separator, getID, String.data_append]
  · simp only [findOperators, List.foldl_cons, List.foldl_nil]
    cases opcode <;> simp [Opcode.isBinaryOp, operatorOpcodes]
  · simp only [findFunctionCalls, List.foldl_cons, List.foldl_nil]
    by_cases h1 : opcode = .Call
    · cases callee with
      | none => simp [h1]
      | some n => by_cases h2 : n ∈ pass.functionCalls <;> simp [h1, h2]
    · simp [h1]

/-! ## Arrays of pointers -/

/-- C20: `isFPArray` is defined on every type by recursion on the element
type, which has one array or pointer layer less; it returns true exactly when
the type is an array or a pointer and the type left after stripping every array
and pointer layer, in whatever order they come, is floating-point.  So it is
false for every floating-point scalar, integer and struct, and for every chain
of arrays and pointers that ends in a type that is not floating-point. -/
theorem isFPArray_iff (t : Ty) :
    (isFPArray t = true
      ↔ (t.getTypeID = .ArrayTyID ∨ t.getTypeID = .PointerTyID)
          ∧ (leafType t).isFloatingPointTy = true)
    ∧ (∀ (n : Nat) (e : Ty),
        isFPArray (.arrayTy n e) = (if e.isFloatingPointTy then true else isFPArray e)
        ∧ layers e < layers (.arrayTy n e))
    ∧ (∀ (e : Ty),
        isFPArray (.pointerTy e) = (if e.isFloatingPointTy then true else isFPArray e)
        ∧ layers e < layers (.pointerTy e))
    ∧ isFPArray .floatTy = false ∧ isFPArray .doubleTy = false
    ∧ isFPArray .x86_fp80Ty = false ∧ isFPArray .fp128Ty = false
    ∧ isFPArray .ppc_fp128Ty = false
    ∧ (∀ bits, isFPArray (.integerTy bits) = false)
    ∧ (∀ name, isFPArray (.structTy name) = false)
    ∧ isFPArray (.pointerTy (.arrayTy 2 (.pointerTy .doubleTy))) = true
    ∧ isFPArray (.arrayTy 2 (.pointerTy (.arrayTy 5 (.integerTy 8)))) = false := by
  refine ⟨?_, ?_, ?_, rfl, rfl, rfl, rfl, rfl, fun _ => rfl, fun _ => rfl, rfl, rfl⟩
  · induction t with
    | arrayTy n e ih =>
        cases hfp : e.isFloatingPointTy
        · simp only [isFPArray, hfp, leafType, ih, Ty.getTypeID]
          simp only [Bool.false_eq_true, if_false, reduceCtorEq, or_false, or_true, true_and]
          constructor
          · exact fun h => (ih.1 h).2
          · intro hleaf
            refine ih.2 ⟨?_, hleaf⟩
            cases e <;> simp_all [Ty.isFloatingPointTy, Ty.getTypeID, leafType]
        · have hleaf : leafType e = e := by
            cases e <;> simp_all [Ty.isFloatingPointTy, Ty.getTypeID, leafType]
          simp [isFPArray, hfp, leafType, hleaf, Ty.getTypeID]
    | pointerTy e ih =>
        cases hfp : e.isFloatingPointTy
        · simp only [isFPArray, hfp, leafType, ih, Ty.getTypeID]
          simp only [Bool.false_eq_true, if_false, reduceCtorEq, or_false, or_true, true_and]
          constructor
          · exact fun h => (ih.1 h).2
          · intro hleaf
            refine ih.2 ⟨?_, hleaf⟩
            cases e <;> simp_all [Ty.isFloatingPointTy, Ty.getTypeID, leafType]
        · have hleaf : leafType e = e := by
            cases e <;> simp_all [Ty.isFloatingPointTy, Ty.getTypeID, leafType]
          simp [isFPArray, hfp, leafType, hleaf, Ty.getTypeID]
    | _ => simp [isFPArray, Ty.getTypeID]
  · intro n e
    exact ⟨by simp [isFPArray], by simp [layers]⟩
  · intro e
    exact ⟨by simp [isFPArray], by simp [layers]⟩

end CreateSearchFile
